import Mathlib

/-
Verification of the talis-test fleet reconciliation and remote-bootstrap
orchestrator.  The Go sources are shallowly embedded: the persisted state
store, the provider API as consumed by the manager, the reconciliation
functions (PrepareInfrastructure, createInstances, waitForInstancesToBeReady,
DeleteAllInstances), the concurrent installer passes, and the deterministic
bootstrap sequencer.  External collaborators (the Talis provider, the SSH
transport, the crypto and genesis libraries) are modelled as parameters or
oracle functions, exactly at the boundary the Go code consumes them.
-/

set_option linter.unusedVariables false

namespace TalisTest

/-- Status of a provider-side instance as consumed by the manager
(models.InstanceStatusPending, Provisioning, Ready; anything else is lumped
into one constructor since the code only compares against these three). -/
inductive InstStatus where
  | pending
  | provisioning
  | ready
  | other
deriving DecidableEq

/-- InstanceInfo from the state store: provider-assigned id, logical name and
discovered public IP, which stays empty until the instance is ready. -/
structure InstanceInfo where
  id : Nat
  name : String
  publicIP : String
deriving DecidableEq

/-- State: the persisted state of the application.  The two Go maps are
modelled as association lists keyed by project name. -/
structure State where
  userID : Nat
  projects : List (String × Nat)
  instances : List (String × List InstanceInfo)
deriving DecidableEq

/-- Replace the binding of a key in an association list, or add it. -/
def setAssoc {α : Type} : List (String × α) → String → α → List (String × α)
  | [], k, v => [(k, v)]
  | (k0, v0) :: rest, k, v =>
    if k0 = k then (k, v) :: rest else (k0, v0) :: setAssoc rest k v

/-- Reading state.Projects at a key in Go yields the zero value 0 when the
key is absent. -/
def State.projectIdOf (st : State) (proj : String) : Nat :=
  (st.projects.lookup proj).getD 0

/-- Reading state.Instances at a key in Go yields the empty slice when the
key is absent. -/
def State.instancesOf (st : State) (proj : String) : List InstanceInfo :=
  (st.instances.lookup proj).getD []

/-- Assign state.Projects at a key. -/
def State.setProjectId (st : State) (proj : String) (pid : Nat) : State :=
  { st with projects := setAssoc st.projects proj pid }

/-- Assign state.Instances at a key. -/
def State.setInstances (st : State) (proj : String) (l : List InstanceInfo) : State :=
  { st with instances := setAssoc st.instances proj l }

/-- The on-disk JSON document backing State: user_id plus two maps, either of
which may be absent or null in the file (modelled by Option). -/
structure StateFile where
  userID : Nat
  projects : Option (List (String × Nat))
  instances : Option (List (String × List InstanceInfo))
deriving DecidableEq

/-- What reading the state file can observe: no file at the path, content that
fails to read or unmarshal, or a parsed document. -/
inductive StateRead where
  | missing
  | corrupt
  | content (f : StateFile)
deriving DecidableEq

/-- LoadState: a missing file yields an empty-but-initialized state rather
than an error; a parsed file has nil maps back-filled; unreadable or
unparsable content is an error. -/
def LoadState : StateRead → Except String State
  | .missing => .ok { userID := 0, projects := [], instances := [] }
  | .corrupt => .error "failed to read or unmarshal state"
  | .content f =>
    .ok { userID := f.userID
          projects := f.projects.getD []
          instances := f.instances.getD [] }

/-- The manager-level view of loading: the disk holds an already-normalized
State; a missing file loads as the empty-but-initialized state, exactly the
result of LoadState on a missing file. -/
def loadDisk (disk : Option State) : State :=
  disk.getD { userID := 0, projects := [], instances := [] }

/-- One instance row on the provider side, with the fields the manager reads:
id, name, creation time and status. -/
structure ProvInstance where
  id : Nat
  name : String
  createdAt : Nat
  status : InstStatus
deriving DecidableEq

/-- Model of the Talis provider API as consumed through the client: user and
project registries, the instance table with a fresh-id counter and a logical
creation clock, a count of issued instance-create calls, fault injection for
create calls, and the status and address an instance reports when queried
later (GetInstance). -/
structure Provider where
  users : List (String × Nat)
  projects : List (String × Nat)
  nextEntityId : Nat
  instances : List ProvInstance
  nextId : Nat
  now : Nat
  createCalls : Nat
  createFails : Nat → Bool
  statusFn : Nat → InstStatus
  ipFn : Nat → String

/-- A provider whose registries and instance table start empty; readiness
statuses and addresses reported by GetInstance are the two parameters. -/
def initProvider (sf : Nat → InstStatus) (ipf : Nat → String) : Provider :=
  { users := [], projects := [], nextEntityId := 1, instances := [], nextId := 1
    now := 0, createCalls := 0, createFails := fun _ => false
    statusFn := sf, ipFn := ipf }

/-- createUserIfNotExists: GetUsers by username, and on the structured 404
signal CreateUser; other API failures are outside the model (the provider
model is total).  Returns the user id and the updated provider. -/
def createUserIfNotExists (p : Provider) (username : String) : Nat × Provider :=
  match p.users.lookup username with
  | some uid => (uid, p)
  | none =>
    (p.nextEntityId,
     { p with users := (username, p.nextEntityId) :: p.users
              nextEntityId := p.nextEntityId + 1 })

/-- createProjectIfNotExists: GetProject by name and owner, and on the
structured 404 signal CreateProject. -/
def createProjectIfNotExists (p : Provider) (projName : String) (ownerID : Nat) :
    Nat × Provider :=
  match p.projects.lookup projName with
  | some pid => (pid, p)
  | none =>
    (p.nextEntityId,
     { p with projects := (projName, p.nextEntityId) :: p.projects
              nextEntityId := p.nextEntityId + 1 })

/-- The provider side of one CreateInstance call: the call is counted; on an
injected failure nothing is created; otherwise a new pending instance with a
fresh id and the current creation clock is appended. -/
def Provider.createCall (p : Provider) (reqName : String) : Bool × Provider :=
  if p.createFails p.createCalls then
    (false, { p with createCalls := p.createCalls + 1 })
  else
    (true,
     { p with
        createCalls := p.createCalls + 1
        instances := p.instances ++
          [{ id := p.nextId, name := reqName, createdAt := p.now, status := .pending }]
        nextId := p.nextId + 1
        now := p.now + 1 })

/-- getPendingInstances: list the project's instances and keep those whose
status is pending or provisioning. -/
def getPendingInstances (p : Provider) : List ProvInstance :=
  p.instances.filter fun i =>
    i.status == InstStatus.pending || i.status == InstStatus.provisioning

/-- The selection loop of createInstance: start from the first pending
instance and replace it by any strictly later-created one
(instance.CreatedAt.After(mostRecent.CreatedAt)). -/
def mostRecent (first : ProvInstance) (l : List ProvInstance) : ProvInstance :=
  l.foldl (fun best i => if best.createdAt < i.createdAt then i else best) first

/-- One entry of Config.Instances: the logical name and the per-component
install flags.  The provider payload fields (region, size, image, tags, SSH
key, volume) are passed opaquely to the create call and never influence the
modelled control flow, so they are not carried. -/
structure InstanceDefinition where
  name : String
  installCelestiaApp : Bool
  installCelestiaNode : Bool
deriving DecidableEq

/-- The application configuration fields the modelled operations read. -/
structure Config where
  username : String
  projectName : String
  instances : List InstanceDefinition
  goVersion : String
  celestiaAppVersion : String
  celestiaNodeVersion : String
deriving DecidableEq

/-- createInstance: issue the create call with the formatted request name
(projectName-defName-index), then query the pending instances and return the
id of the most recently created one; an empty pending list is an error. -/
def createInstance (cfg : Config) (p : Provider) (idx : Nat) (d : InstanceDefinition) :
    Except String Nat × Provider :=
  let reqName := cfg.projectName ++ "-" ++ d.name ++ "-" ++ toString idx
  match Provider.createCall p reqName with
  | (false, p1) => (.error "failed to create instance", p1)
  | (true, p1) =>
    match getPendingInstances p1 with
    | [] => (.error "no pending instances found", p1)
    | h :: t => (.ok (mostRecent h (h :: t)).id, p1)

/-- The create loop of createInstances: for each definition in order, create
the instance and append an InstanceInfo with empty IP to the in-memory state;
a failure aborts the loop at once, keeping the state mutated so far only in
memory. -/
def createLoop (cfg : Config) (idx : Nat) (defs : List InstanceDefinition)
    (st : State) (p : Provider) : Except String (List Nat) × State × Provider :=
  match defs with
  | [] => (.ok [], st, p)
  | d :: rest =>
    match createInstance cfg p idx d with
    | (.error e, p1) => (.error e, st, p1)
    | (.ok instId, p1) =>
      let st1 := st.setInstances cfg.projectName
        (st.instancesOf cfg.projectName ++ [{ id := instId, name := d.name, publicIP := "" }])
      match createLoop cfg (idx + 1) rest st1 p1 with
      | (.ok ids, st2, p2) => (.ok (instId :: ids), st2, p2)
      | (.error e, st2, p2) => (.error e, st2, p2)

/-- createInstances: when the state already records instances for the project,
return their ids and touch nothing; otherwise create one instance per
configured definition and save the state to disk once, after the whole loop
succeeds.  A loop failure leaves the disk untouched. -/
def createInstances (cfg : Config) (st : State) (disk : Option State) (p : Provider) :
    Except String (List Nat) × State × Option State × Provider :=
  if (st.instancesOf cfg.projectName).length > 0 then
    (.ok ((st.instancesOf cfg.projectName).map InstanceInfo.id), st, disk, p)
  else
    match createLoop cfg 0 cfg.instances st p with
    | (.ok ids, st1, p1) => (.ok ids, st1, some st1, p1)
    | (.error e, st1, p1) => (.error e, st1, disk, p1)

/-- waitForInstancesToBeReady: poll every instance's status; succeed when all
report ready, report a timeout error once the elapsed time strictly exceeds
the timeout, and otherwise sleep five seconds and poll again.  The second
component is the elapsed time, in seconds, at the moment of return; remote
calls are instantaneous in the model. -/
def waitForInstancesToBeReady (sf : Nat → InstStatus) (ids : List Nat)
    (timeout elapsed : Nat) : Except String Unit × Nat :=
  if ids.all (fun i => sf i == InstStatus.ready) then (.ok (), elapsed)
  else if timeout < elapsed then (.error "instances not ready", elapsed)
  else waitForInstancesToBeReady sf ids timeout (elapsed + 5)
termination_by timeout + 1 - elapsed
decreasing_by omega

/-- The IP-update step of PrepareInfrastructure: set the public IP of the
first recorded instance whose id matches (the Go loop breaks at the first
match). -/
def setIPFirst (recs : List InstanceInfo) (instId : Nat) (ip : String) :
    List InstanceInfo :=
  match recs with
  | [] => []
  | r :: rest =>
    if r.id = instId then { r with publicIP := ip } :: rest
    else r :: setIPFirst rest instId ip

/-- The IP-update loop of PrepareInfrastructure: for each instance id, query
its public IP and update the matching record in the project's list. -/
def updateIPs (p : Provider) (proj : String) (ids : List Nat) (st : State) : State :=
  ids.foldl
    (fun s i => s.setInstances proj (setIPFirst (s.instancesOf proj) i (p.ipFn i))) st

/-- The result of one PrepareInfrastructure run: the outcome, the on-disk
state, the provider, and the seconds spent in the readiness poll loop. -/
structure PrepResult where
  result : Except String Unit
  disk : Option State
  prov : Provider
  waited : Nat

/-- PrepareInfrastructure: load state; create and save the user and then the
project whenever their recorded ids are zero; create instances; wait up to
five minutes (300 s) for readiness; then fetch each instance's IP, update the
matching record and save the state. -/
def PrepareInfrastructure (cfg : Config) (disk0 : Option State) (p0 : Provider) :
    PrepResult :=
  let st0 := loadDisk disk0
  let r1 :=
    if st0.userID = 0 then
      let u := createUserIfNotExists p0 cfg.username
      let st1 : State := { st0 with userID := u.fst }
      (u.fst, st1, some st1, u.snd)
    else (st0.userID, st0, disk0, p0)
  match r1 with
  | (userID, st1, disk1, p1) =>
    let r2 :=
      if st1.projectIdOf cfg.projectName = 0 then
        let pr := createProjectIfNotExists p1 cfg.projectName userID
        let st2 := st1.setProjectId cfg.projectName pr.fst
        (st2, some st2, pr.snd)
      else (st1, disk1, p1)
    match r2 with
    | (st2, disk2, p2) =>
      match createInstances cfg st2 disk2 p2 with
      | (.error e, _, disk3, p3) => { result := .error e, disk := disk3, prov := p3, waited := 0 }
      | (.ok ids, st3, disk3, p3) =>
        match waitForInstancesToBeReady p3.statusFn ids 300 0 with
        | (.error e, w) => { result := .error e, disk := disk3, prov := p3, waited := w }
        | (.ok _, w) =>
          let st4 := updateIPs p3 cfg.projectName ids st3
          { result := .ok (), disk := some st4, prov := p3, waited := w }

/-- Two PrepareInfrastructure runs back to back against the same state store:
the second run starts from the disk and provider the first run left behind. -/
def prepareTwice (cfg : Config) (disk : Option State) (p : Provider) :
    PrepResult × PrepResult :=
  let r1 := PrepareInfrastructure cfg disk p
  (r1, PrepareInfrastructure cfg r1.disk r1.prov)

/-- The provider side of DeleteInstances by instance names: matching rows are
removed from the instance table. -/
def Provider.deleteByNames (p : Provider) (names : List String) : Provider :=
  { p with instances := p.instances.filter fun i => !(names.contains i.name) }

/-- The loop of deleteInstances: walk the recorded instances; each whose id is
among the requested ids is deleted at the provider by its recorded name, all
others are collected as remaining. -/
def deleteLoop (instanceIDs : List Nat) (recs : List InstanceInfo) (p : Provider) :
    List InstanceInfo × Provider :=
  match recs with
  | [] => ([], p)
  | r :: rest =>
    if instanceIDs.contains r.id then
      deleteLoop instanceIDs rest (p.deleteByNames [r.name])
    else
      let rp := deleteLoop instanceIDs rest p
      (r :: rp.fst, rp.snd)

/-- deleteInstances: delete the requested instances, store the remaining list
for the project and save the state. -/
def deleteInstances (cfg : Config) (st : State) (instanceIDs : List Nat) (p : Provider) :
    State × Option State × Provider :=
  let rp := deleteLoop instanceIDs (st.instancesOf cfg.projectName) p
  let st1 := st.setInstances cfg.projectName rp.fst
  (st1, some st1, rp.snd)

/-- DeleteAllInstances: load state; fail when the recorded project id is zero;
create and save the user when the recorded user id is zero; collect every
recorded id for the project (nothing to delete means immediate success);
delete them all, then clear the project's instance list and save. -/
def DeleteAllInstances (cfg : Config) (disk0 : Option State) (p0 : Provider) :
    Except String Unit × Option State × Provider :=
  let st0 := loadDisk disk0
  if st0.projectIdOf cfg.projectName = 0 then
    (.error "project not found", disk0, p0)
  else
    let r1 :=
      if st0.userID = 0 then
        let u := createUserIfNotExists p0 cfg.username
        let st1 : State := { st0 with userID := u.fst }
        (st1, some st1, u.snd)
      else (st0, disk0, p0)
    match r1 with
    | (st1, disk1, p1) =>
      let instanceIDs := (st1.instancesOf cfg.projectName).map InstanceInfo.id
      if instanceIDs.length = 0 then (.ok (), disk1, p1)
      else
        match deleteInstances cfg st1 instanceIDs p1 with
        | (st2, _, p2) =>
          let st3 := st2.setInstances cfg.projectName []
          (.ok (), some st3, p2)

/-- One remote SSH operation issued by the concurrent installer: run a command
on a host, or copy a local file onto a host. -/
inductive SshAction where
  | exec (host cmd : String)
  | copy (host localPath remotePath : String)
deriving DecidableEq

/-- The presence probe of InstallGoOnInstances; its remote exit status alone
decides whether the install path is taken (shell text abbreviated, it is
opaque to the orchestration logic). -/
def goCheckCmd : String :=
  "if [ -x /usr/local/go/bin/go ] || [ -x go/bin/go ] || command -v go; then exit 0; else exit 1; fi"

/-- The presence probe of InstallCelestiaAppOnInstances. -/
def appCheckCmd : String :=
  "if [ -d celestia-app ] && [ -x go/bin/celestia-appd ]; then exit 0; else exit 1; fi"

/-- The presence probe of InstallCelestiaNodeOnInstances. -/
def nodeCheckCmd : String :=
  "if [ -d celestia-node ] && [ -x go/bin/celestia ]; then exit 0; else exit 1; fi"

/-- The worker body of InstallGoOnInstances for one instance: run the probe;
on probe success return at once; otherwise copy the install script and, if the
copy succeeded, run it with the configured version.  The oracle ssh gives each
remote operation's success.  Results: the remote operations issued, and the
error sent to the error channel, if any. -/
def goInstallWorker (ssh : SshAction → Bool) (goVersion : String) (host : String) :
    List SshAction × Option String :=
  let probe := SshAction.exec host goCheckCmd
  if ssh probe then ([probe], none)
  else
    let cp := SshAction.copy host "scripts/install_go.sh" "install_go.sh"
    if ssh cp then
      let run := SshAction.exec host ("chmod +x install_go.sh && ./install_go.sh " ++ goVersion)
      if ssh run then ([probe, cp, run], none)
      else ([probe, cp, run], some "failed to execute Go installation script")
    else ([probe, cp], some "failed to copy installation script")

/-- The worker body of InstallCelestiaAppOnInstances for one instance. -/
def appInstallWorker (ssh : SshAction → Bool) (version : String) (host : String) :
    List SshAction × Option String :=
  let probe := SshAction.exec host appCheckCmd
  if ssh probe then ([probe], none)
  else
    let cp := SshAction.copy host "scripts/install_celestia_app.sh" "install_celestia_app.sh"
    if ssh cp then
      let run := SshAction.exec host
        ("chmod +x install_celestia_app.sh && ./install_celestia_app.sh " ++ version)
      if ssh run then ([probe, cp, run], none)
      else ([probe, cp, run], some "failed to execute Celestia App installation script")
    else ([probe, cp], some "failed to copy installation script")

/-- The worker body of InstallCelestiaNodeOnInstances for one instance. -/
def nodeInstallWorker (ssh : SshAction → Bool) (version : String) (host : String) :
    List SshAction × Option String :=
  let probe := SshAction.exec host nodeCheckCmd
  if ssh probe then ([probe], none)
  else
    let cp := SshAction.copy host "scripts/install_celestia_node.sh" "install_celestia_node.sh"
    if ssh cp then
      let run := SshAction.exec host
        ("chmod +x install_celestia_node.sh && ./install_celestia_node.sh " ++ version)
      if ssh run then ([probe, cp, run], none)
      else ([probe, cp, run], some "failed to execute Celestia Node installation script")
    else ([probe, cp], some "failed to copy installation script")

/-- The fleet loop of InstallGoOnInstances: instances without a public IP are
skipped with a log note; every other instance gets a Go install worker.  The
i-th entry is the list of remote operations issued for the i-th recorded
instance. -/
def installGoPass (ssh : SshAction → Bool) (cfg : Config) (recs : List InstanceInfo) :
    List (List SshAction) :=
  recs.map fun inst =>
    if inst.publicIP = "" then []
    else (goInstallWorker ssh cfg.goVersion inst.publicIP).fst

/-- The per-index body of the InstallCelestiaAppOnInstances loop: skip an
instance without a public IP, then pair the record at index i with the
configured definition at the same index; an index at or past the end of the
configured list, or a cleared install flag, skips the instance
(i >= len(config.Instances) or not Instances[i].InstallCelestiaApp). -/
def appBodyAt (ssh : SshAction → Bool) (cfg : Config) (i : Nat) (inst : InstanceInfo) :
    List SshAction :=
  if inst.publicIP = "" then []
  else
    match cfg.instances.get? i with
    | none => []
    | some d =>
      if d.installCelestiaApp then (appInstallWorker ssh cfg.celestiaAppVersion inst.publicIP).fst
      else []

/-- The per-index body of the InstallCelestiaNodeOnInstances loop, with the
same positional pairing and skip conditions as the app variant. -/
def nodeBodyAt (ssh : SshAction → Bool) (cfg : Config) (i : Nat) (inst : InstanceInfo) :
    List SshAction :=
  if inst.publicIP = "" then []
  else
    match cfg.instances.get? i with
    | none => []
    | some d =>
      if d.installCelestiaNode then (nodeInstallWorker ssh cfg.celestiaNodeVersion inst.publicIP).fst
      else []

/-- The indexed fleet loop of InstallCelestiaAppOnInstances. -/
def installAppPassFrom (ssh : SshAction → Bool) (cfg : Config) :
    Nat → List InstanceInfo → List (List SshAction)
  | _, [] => []
  | i, inst :: rest => appBodyAt ssh cfg i inst :: installAppPassFrom ssh cfg (i + 1) rest

/-- The fleet loop of InstallCelestiaAppOnInstances, starting at index 0. -/
def installAppPass (ssh : SshAction → Bool) (cfg : Config) (recs : List InstanceInfo) :
    List (List SshAction) :=
  installAppPassFrom ssh cfg 0 recs

/-- The indexed fleet loop of InstallCelestiaNodeOnInstances. -/
def installNodePassFrom (ssh : SshAction → Bool) (cfg : Config) :
    Nat → List InstanceInfo → List (List SshAction)
  | _, [] => []
  | i, inst :: rest => nodeBodyAt ssh cfg i inst :: installNodePassFrom ssh cfg (i + 1) rest

/-- The fleet loop of InstallCelestiaNodeOnInstances, starting at index 0. -/
def installNodePass (ssh : SshAction → Bool) (cfg : Config) (recs : List InstanceInfo) :
    List (List SshAction) :=
  installNodePassFrom ssh cfg 0 recs

/-- The phase of one install worker goroutine: not yet holding a semaphore
slot (its planned remote operations still ahead of it), holding a slot with
some remote operations left to perform, or finished with the slot released. -/
inductive WorkerPhase where
  | waiting (ops : List SshAction)
  | holding (ops : List SshAction)
  | finished
deriving DecidableEq

/-- The number of workers currently holding a semaphore slot, i.e. the fill of
the admission channel sem created with capacity 10. -/
def holdingCount (ws : List WorkerPhase) : Nat :=
  ws.countP fun w => match w with | .holding _ => true | _ => false

/-- Interleaving semantics of one install pass: a worker first acquires the
semaphore, which is possible only while fewer than 10 workers hold it; it may
perform its remote operations only while holding; when its operations are
done it releases the slot.  This mirrors the goroutine body: acquire sem,
deferred release, remote calls in between. -/
inductive InstallStep : List WorkerPhase → List WorkerPhase → Prop
  | acquire (ws : List WorkerPhase) (i : Nat) (ops : List SshAction)
      (hw : ws.get? i = some (.waiting ops)) (hsem : holdingCount ws < 10) :
      InstallStep ws (ws.set i (.holding ops))
  | work (ws : List WorkerPhase) (i : Nat) (op : SshAction) (rest : List SshAction)
      (hw : ws.get? i = some (.holding (op :: rest))) :
      InstallStep ws (ws.set i (.holding rest))
  | release (ws : List WorkerPhase) (i : Nat)
      (hw : ws.get? i = some (.holding [])) :
      InstallStep ws (ws.set i .finished)

/-- The initial pool of an install pass: one waiting worker per per-instance
operation list (for example the entries of installGoPass). -/
def initPool (plan : List (List SshAction)) : List WorkerPhase :=
  plan.map WorkerPhase.waiting

/-- The pool states reachable by interleaving the workers of a pass. -/
def InstallReachable (plan : List (List SshAction)) (ws : List WorkerPhase) : Prop :=
  Relation.ReflTransGen InstallStep (initPool plan) ws

/-- Key kinds supported by the deterministic generator (keyType in the
source: ed25519Type and secp256k1Type). -/
inductive KeyKind where
  | ed25519
  | secp256k1
deriving DecidableEq

/-- A generated key pair, identified by its kind and the 32 seed bytes drawn
from the generator; the actual scalar derivation is the external crypto
library, a fixed function of these. -/
structure keyPair where
  kind : KeyKind
  seedBytes : Nat
deriving DecidableEq

/-- The deterministic keyGenerator: a seeded math/rand source, modelled by the
seed together with the number of 32-byte reads already consumed.  The byte
stream itself is the external PRNG, a fixed function of seed and position,
passed as a parameter wherever keys are generated. -/
structure keyGenerator where
  seed : Int
  consumed : Nat
deriving DecidableEq

/-- newKeyGenerator: a fresh generator for the seed, nothing consumed. -/
def newKeyGenerator (seed : Int) : keyGenerator :=
  { seed := seed, consumed := 0 }

/-- Generate: read the next 32 bytes from the seeded stream and derive a key
pair of the requested kind; the generator advances by exactly one read. -/
def keyGenerator.generate (stream : Int → Nat → Nat) (g : keyGenerator) (t : KeyKind) :
    keyPair × keyGenerator :=
  ({ kind := t, seedBytes := stream g.seed g.consumed },
   { g with consumed := g.consumed + 1 })

/-- A genesis validator descriptor as built by GenesisValidator: name, initial
token balance (1e16), stake (1e12), and the node's two keys. -/
structure GenesisValidator where
  name : String
  initialTokens : Int
  stake : Int
  consensusKey : keyPair
  networkKey : keyPair
deriving DecidableEq

/-- A Celestia node of the bootstrap sequencer. -/
structure CelestiaNode where
  name : String
  signerKey : keyPair
  networkKey : keyPair
  homeDir : String
  publicIP : String
deriving DecidableEq

/-- The in-progress network: chain id, the genesis validator list built so
far, the shared key generator, and the registered nodes. -/
structure CelestiaNetwork where
  chainID : String
  validators : List GenesisValidator
  keygen : keyGenerator
  nodes : List CelestiaNode
deriving DecidableEq

/-- GenesisValidator of a node: fixed initial tokens and stake, the signing
key as consensus key and the network key as network key. -/
def GenesisValidatorOf (n : CelestiaNode) : GenesisValidator :=
  { name := n.name, initialTokens := 10000000000000000, stake := 1000000000000
    consensusKey := n.signerKey, networkKey := n.networkKey }

/-- NewCelestiaNetwork: a default genesis carrying the chain id and a key
generator seeded with the fixed seed 42. -/
def NewCelestiaNetwork (chainID : String) : CelestiaNetwork :=
  { chainID := chainID, validators := [], keygen := newKeyGenerator 42, nodes := [] }

/-- CreateGenesisNode: generate the signing key and then the network key from
the single shared generator, append the validator to the genesis, and append
the node. -/
def CreateGenesisNode (stream : Int → Nat → Nat) (net : CelestiaNetwork)
    (name homeDir publicIP : String) : CelestiaNetwork :=
  let s := net.keygen.generate stream KeyKind.ed25519
  let n := s.snd.generate stream KeyKind.ed25519
  let node : CelestiaNode :=
    { name := name, signerKey := s.fst, networkKey := n.fst
      homeDir := homeDir, publicIP := publicIP }
  { net with
      keygen := n.snd
      validators := net.validators ++ [GenesisValidatorOf node]
      nodes := net.nodes ++ [node] }

/-- One node registration request: name, home directory and public IP. -/
structure Registration where
  name : String
  homeDir : String
  publicIP : String
deriving DecidableEq

/-- One bootstrap run: a fresh network for the chain id, then one
CreateGenesisNode call per registration, in registration order. -/
def bootstrapRun (stream : Int → Nat → Nat) (chainID : String)
    (regs : List Registration) : CelestiaNetwork :=
  regs.foldl
    (fun net r => CreateGenesisNode stream net r.name r.homeDir r.publicIP)
    (NewCelestiaNetwork chainID)

/-- The exported genesis document: chain id, the closed validator list, and
the consensus block MaxBytes.  The MaxBytes value the export yields comes
from the external default genesis, so it is a parameter of the model
(libMaxBytes). -/
structure GenesisDoc where
  chainID : String
  validators : List GenesisValidator
  maxBytes : Nat
deriving DecidableEq

/-- Export of the network's genesis. -/
def exportGenesis (net : CelestiaNetwork) (libMaxBytes : Nat) : GenesisDoc :=
  { chainID := net.chainID, validators := net.validators, maxBytes := libMaxBytes }

/-- Deterministic rendering of a genesis document to the byte string written
to each node. -/
def serializeGenesis (doc : GenesisDoc) : String :=
  doc.chainID ++ ";" ++ toString doc.maxBytes ++ ";" ++
    String.intercalate "," (doc.validators.map GenesisValidator.name)

/-- The observable actions of the genesis stage of SetupNetwork: the single
Export call and, per node, remote commands and file writes. -/
inductive SetupEvent where
  | exportCall
  | exec (host cmd : String)
  | writeFile (host path content : String)
deriving DecidableEq

/-- The genesis stage of SetupNetwork: export the genesis once, assign
Block.MaxBytes = 104857600 unconditionally, then for every node remove the
old genesis file, write the serialized document to it, and set its
permissions to 644. -/
def setupNetworkGenesisStage (net : CelestiaNetwork) (libMaxBytes : Nat) :
    GenesisDoc × List SetupEvent :=
  let doc0 := exportGenesis net libMaxBytes
  let doc : GenesisDoc := { doc0 with maxBytes := 104857600 }
  (doc,
   SetupEvent.exportCall ::
   (net.nodes.map fun nd =>
     [SetupEvent.exec nd.publicIP ("rm -f " ++ nd.homeDir ++ "/config/genesis.json"),
      SetupEvent.writeFile nd.publicIP (nd.homeDir ++ "/config/genesis.json")
        (serializeGenesis doc),
      SetupEvent.exec nd.publicIP ("chmod 644 " ++ nd.homeDir ++ "/config/genesis.json")]).flatten)

/-- The instance rows a sequence of successful creates appends at the
provider, starting at a given fresh id and clock value. -/
def provRowsFor (cfg : Config) : List InstanceDefinition → Nat → Nat → Nat → List ProvInstance
  | [], _, _, _ => []
  | d :: rest, idx, startId, startNow =>
    { id := startId, name := cfg.projectName ++ "-" ++ d.name ++ "-" ++ toString idx
      createdAt := startNow, status := .pending } ::
    provRowsFor cfg rest (idx + 1) (startId + 1) (startNow + 1)

/-- The instance records a sequence of successful creates appends to the
state: consecutive ids, the definitions' names, empty IPs. -/
def recsFor : List InstanceDefinition → Nat → List InstanceInfo
  | [], _ => []
  | d :: rest, startId =>
    { id := startId, name := d.name, publicIP := "" } :: recsFor rest (startId + 1)

/-- Invariant of the provider model: every instance row was created strictly
before the current clock value. -/
def freshProv (p : Provider) : Prop :=
  ∀ inst ∈ p.instances, inst.createdAt < p.now

theorem lookup_setAssoc_self {α : Type} (m : List (String × α)) (k : String) (v : α) :
    List.lookup k (setAssoc m k v) = some v := by
  induction m with
  | nil => simp [setAssoc, List.lookup]
  | cons kv rest ih =>
    obtain ⟨k0, v0⟩ := kv
    by_cases h : k0 = k
    · simp [setAssoc, h, List.lookup]
    · have h2 : (k == k0) = false := by
        simp only [beq_eq_false_iff_ne]
        exact Ne.symm h
      simp [setAssoc, h, List.lookup, h2, ih]

theorem instancesOf_setInstances (st : State) (proj : String) (l : List InstanceInfo) :
    (st.setInstances proj l).instancesOf proj = l := by
  simp [State.setInstances, State.instancesOf, lookup_setAssoc_self]

theorem userID_setInstances (st : State) (proj : String) (l : List InstanceInfo) :
    (st.setInstances proj l).userID = st.userID := rfl

theorem projects_setInstances (st : State) (proj : String) (l : List InstanceInfo) :
    (st.setInstances proj l).projects = st.projects := rfl

theorem projectIdOf_setInstances (st : State) (proj q : String) (l : List InstanceInfo) :
    (st.setInstances proj l).projectIdOf q = st.projectIdOf q := rfl

theorem userID_setProjectId (st : State) (proj : String) (pid : Nat) :
    (st.setProjectId proj pid).userID = st.userID := rfl

theorem instancesOf_setProjectId (st : State) (proj q : String) (pid : Nat) :
    (st.setProjectId proj pid).instancesOf q = st.instancesOf q := rfl

theorem projectIdOf_setProjectId_self (st : State) (proj : String) (pid : Nat) :
    (st.setProjectId proj pid).projectIdOf proj = pid := by
  simp [State.setProjectId, State.projectIdOf, lookup_setAssoc_self]

theorem mostRecent_spec (l : List ProvInstance) (first : ProvInstance) :
    (mostRecent first l = first ∨ mostRecent first l ∈ l) ∧
    first.createdAt ≤ (mostRecent first l).createdAt ∧
    ∀ x ∈ l, x.createdAt ≤ (mostRecent first l).createdAt := by
  induction l generalizing first with
  | nil => simp [mostRecent]
  | cons a t ih =>
    have hstep : mostRecent first (a :: t)
        = mostRecent (if first.createdAt < a.createdAt then a else first) t := rfl
    by_cases h : first.createdAt < a.createdAt
    · have := ih a
      rw [hstep, if_pos h]
      refine ⟨?_, ?_, ?_⟩
      · rcases this.1 with h1 | h1
        · exact Or.inr (by simp [h1])
        · exact Or.inr (List.mem_cons_of_mem a h1)
      · exact le_trans (le_of_lt h) this.2.1
      · intro x hx
        rcases List.mem_cons.mp hx with rfl | hx
        · exact this.2.1
        · exact this.2.2 x hx
    · have := ih first
      rw [hstep, if_neg h]
      refine ⟨?_, this.2.1, ?_⟩
      · rcases this.1 with h1 | h1
        · exact Or.inl h1
        · exact Or.inr (List.mem_cons_of_mem a h1)
      · intro x hx
        rcases List.mem_cons.mp hx with rfl | hx
        · exact le_trans (Nat.le_of_not_lt h) this.2.1
        · exact this.2.2 x hx

theorem mostRecent_of_strict_max (hd : ProvInstance) (tl : List ProvInstance)
    (nu : ProvInstance) (hmem : nu ∈ hd :: tl)
    (hmax : ∀ x ∈ hd :: tl, x ≠ nu → x.createdAt < nu.createdAt) :
    mostRecent hd (hd :: tl) = nu := by
  have hspec := mostRecent_spec (hd :: tl) hd
  set m := mostRecent hd (hd :: tl) with hm
  have hmmem : m ∈ hd :: tl := by
    rcases hspec.1 with h1 | h1
    · rw [h1]; exact List.mem_cons_self hd tl
    · exact h1
  have hge : nu.createdAt ≤ m.createdAt := hspec.2.2 nu hmem
  by_contra hne
  exact absurd hge (Nat.not_le_of_lt (hmax m hmmem hne))

theorem createInstance_ok (cfg : Config) (p : Provider) (idx : Nat)
    (d : InstanceDefinition)
    (hfail : p.createFails p.createCalls = false) (hfresh : freshProv p) :
    createInstance cfg p idx d =
      (.ok p.nextId,
       { p with createCalls := p.createCalls + 1
                instances := p.instances ++
                  [{ id := p.nextId
                     name := cfg.projectName ++ "-" ++ d.name ++ "-" ++ toString idx
                     createdAt := p.now, status := .pending }]
                nextId := p.nextId + 1
                now := p.now + 1 }) := by
  have hrow : getPendingInstances
      { p with createCalls := p.createCalls + 1
               instances := p.instances ++
                 [{ id := p.nextId
                    name := cfg.projectName ++ "-" ++ d.name ++ "-" ++ toString idx
                    createdAt := p.now, status := .pending }]
               nextId := p.nextId + 1
               now := p.now + 1 }
      = (p.instances.filter fun i =>
          i.status == InstStatus.pending || i.status == InstStatus.provisioning) ++
        [{ id := p.nextId
           name := cfg.projectName ++ "-" ++ d.name ++ "-" ++ toString idx
           createdAt := p.now, status := .pending }] := by
    simp [getPendingInstances, List.filter_append]
  unfold createInstance Provider.createCall
  rw [hfail]
  simp only [Bool.false_eq_true, if_false]
  rw [hrow]
  set nu : ProvInstance :=
    { id := p.nextId
      name := cfg.projectName ++ "-" ++ d.name ++ "-" ++ toString idx
      createdAt := p.now, status := .pending } with hnu
  set olds := p.instances.filter fun i =>
    i.status == InstStatus.pending || i.status == InstStatus.provisioning with holds
  have hlt : ∀ x ∈ olds ++ [nu], x ≠ nu → x.createdAt < nu.createdAt := by
    intro x hx hxne
    rcases List.mem_append.mp hx with hx | hx
    · exact hfresh x (List.mem_of_mem_filter hx)
    · exact absurd (List.mem_singleton.mp hx) hxne
  have hnumem : nu ∈ olds ++ [nu] := List.mem_append_right olds (List.mem_singleton.mpr rfl)
  cases he : olds ++ [nu] with
  | nil => exact absurd he (List.append_ne_nil_of_right_ne_nil olds (by simp))
  | cons hd tl =>
    rw [he] at hlt hnumem
    have := mostRecent_of_strict_max hd tl nu hnumem hlt
    simp [this]

theorem createLoop_ok (cfg : Config) (defs : List InstanceDefinition) (idx : Nat)
    (st : State) (p : Provider)
    (hfail : ∀ k, p.createFails k = false) (hfresh : freshProv p) :
    ∃ st2 p2,
      createLoop cfg idx defs st p = (.ok (List.range' p.nextId defs.length), st2, p2) ∧
      st2.userID = st.userID ∧ st2.projects = st.projects ∧
      st2.instancesOf cfg.projectName
        = st.instancesOf cfg.projectName ++ recsFor defs p.nextId ∧
      p2.createCalls = p.createCalls + defs.length ∧
      p2.nextId = p.nextId + defs.length ∧
      p2.now = p.now + defs.length ∧
      p2.instances = p.instances ++ provRowsFor cfg defs idx p.nextId p.now ∧
      p2.createFails = p.createFails ∧ p2.statusFn = p.statusFn ∧ p2.ipFn = p.ipFn ∧
      p2.users = p.users ∧ p2.projects = p.projects ∧
      p2.nextEntityId = p.nextEntityId := by
  induction defs generalizing idx st p with
  | nil =>
    refine ⟨st, p, ?_⟩
    simp [createLoop, recsFor, provRowsFor]
  | cons d rest ih =>
    have hco := createInstance_ok cfg p idx d (hfail p.createCalls) hfresh
    set p1 : Provider :=
      { p with createCalls := p.createCalls + 1
               instances := p.instances ++
                 [{ id := p.nextId
                    name := cfg.projectName ++ "-" ++ d.name ++ "-" ++ toString idx
                    createdAt := p.now, status := .pending }]
               nextId := p.nextId + 1
               now := p.now + 1 } with hp1
    set st1 := st.setInstances cfg.projectName
      (st.instancesOf cfg.projectName ++ [{ id := p.nextId, name := d.name, publicIP := "" }])
      with hst1
    have hfail1 : ∀ k, p1.createFails k = false := hfail
    have hfresh1 : freshProv p1 := by
      intro inst hinst
      rcases List.mem_append.mp hinst with h | h
      · exact Nat.lt_trans (hfresh inst h) (Nat.lt_succ_self p.now)
      · rw [List.mem_singleton.mp h]
        exact Nat.lt_succ_self p.now
    obtain ⟨st2, p2, heq, hu, hpr, hinst, hc, hn, hnow, hrows, hcf, hsf, hip, hus, hps, hne⟩ :=
      ih (idx + 1) st1 p1 hfail1 hfresh1
    refine ⟨st2, p2, ?_, ?_, ?_, ?_, ?_, ?_, ?_, ?_, ?_, ?_, ?_, ?_, ?_, ?_⟩
    · show createLoop cfg idx (d :: rest) st p = _
      unfold createLoop
      rw [hco]
      simp only
      rw [heq]
      have hr : List.range' p.nextId (d :: rest).length
          = p.nextId :: List.range' (p.nextId + 1) rest.length := by
        simp [List.range'_succ]
      rw [hr]
    · rw [hu, hst1, userID_setInstances]
    · rw [hpr, hst1, projects_setInstances]
    · rw [hinst]
      have : st1.instancesOf cfg.projectName
          = st.instancesOf cfg.projectName ++ [{ id := p.nextId, name := d.name, publicIP := "" }] := by
        rw [hst1, instancesOf_setInstances]
      rw [this]
      show _ = st.instancesOf cfg.projectName ++ recsFor (d :: rest) p.nextId
      rw [List.append_assoc]
      rfl
    · rw [hc]; show p.createCalls + 1 + rest.length = p.createCalls + (rest.length + 1); omega
    · rw [hn]; show p.nextId + 1 + rest.length = p.nextId + (rest.length + 1); omega
    · rw [hnow]; show p.now + 1 + rest.length = p.now + (rest.length + 1); omega
    · rw [hrows]
      show (p.instances ++ _) ++ provRowsFor cfg rest (idx + 1) (p.nextId + 1) (p.now + 1)
          = p.instances ++ provRowsFor cfg (d :: rest) idx p.nextId p.now
      rw [List.append_assoc]
      rfl
    · exact hcf
    · exact hsf
    · exact hip
    · exact hus
    · exact hps
    · exact hne

theorem recsFor_map_name (defs : List InstanceDefinition) (s : Nat) :
    (recsFor defs s).map InstanceInfo.name = defs.map InstanceDefinition.name := by
  induction defs generalizing s with
  | nil => rfl
  | cons d rest ih => simp [recsFor, ih]

theorem recsFor_map_id (defs : List InstanceDefinition) (s : Nat) :
    (recsFor defs s).map InstanceInfo.id = List.range' s defs.length := by
  induction defs generalizing s with
  | nil => rfl
  | cons d rest ih => simp [recsFor, ih, List.range'_succ]

theorem recsFor_publicIP (defs : List InstanceDefinition) (s : Nat) :
    ∀ r ∈ recsFor defs s, r.publicIP = "" := by
  induction defs generalizing s with
  | nil => simp [recsFor]
  | cons d rest ih =>
    intro r hr
    rcases List.mem_cons.mp hr with rfl | hr
    · rfl
    · exact ih (s + 1) r hr

theorem createInstances_existing (cfg : Config) (st : State) (disk : Option State)
    (p : Provider) (h : st.instancesOf cfg.projectName ≠ []) :
    createInstances cfg st disk p
      = (.ok ((st.instancesOf cfg.projectName).map InstanceInfo.id), st, disk, p) := by
  unfold createInstances
  rw [if_pos (List.length_pos.mpr h)]

theorem waitFor_ready (sf : Nat → InstStatus) (ids : List Nat) (timeout elapsed : Nat)
    (h : ∀ i, sf i = InstStatus.ready) :
    waitForInstancesToBeReady sf ids timeout elapsed = (.ok (), elapsed) := by
  unfold waitForInstancesToBeReady
  have hall : ids.all (fun i => sf i == InstStatus.ready) = true := by
    simp only [List.all_eq_true]
    intro i _
    simp [h i]
  rw [hall]
  simp

theorem waitFor_never_aux (sf : Nat → InstStatus) (ids : List Nat) (timeout : Nat)
    (hall : ids.all (fun i => sf i == InstStatus.ready) = false) :
    ∀ n elapsed, timeout + 1 - elapsed ≤ n → elapsed ≤ timeout + 5 →
      (waitForInstancesToBeReady sf ids timeout elapsed).fst
          = Except.error "instances not ready" ∧
      (waitForInstancesToBeReady sf ids timeout elapsed).snd ≤ timeout + 5 := by
  intro n
  induction n with
  | zero =>
    intro elapsed h0 hel
    have hlt : timeout < elapsed := by omega
    unfold waitForInstancesToBeReady
    rw [hall]
    simp [hlt, hel]
  | succ n ih =>
    intro elapsed h0 hel
    unfold waitForInstancesToBeReady
    rw [hall]
    by_cases hlt : timeout < elapsed
    · simp [hlt, hel]
    · have := ih (elapsed + 5) (by omega) (by omega)
      simp only [Bool.false_eq_true, if_false, if_neg hlt]
      exact this

theorem waitFor_never (sf : Nat → InstStatus) (ids : List Nat) (timeout : Nat)
    (hne : ids ≠ []) (hnever : ∀ i, sf i ≠ InstStatus.ready) :
    (waitForInstancesToBeReady sf ids timeout 0).fst
        = Except.error "instances not ready" ∧
    (waitForInstancesToBeReady sf ids timeout 0).snd ≤ timeout + 5 := by
  have hall : ids.all (fun i => sf i == InstStatus.ready) = false := by
    rcases ids with _ | ⟨i, rest⟩
    · exact absurd rfl hne
    · simp only [List.all_cons, Bool.and_eq_false_iff]
      left
      simp [hnever i]
  exact waitFor_never_aux sf ids timeout hall (timeout + 1) 0 (by omega) (by omega)

theorem setIPFirst_map_id (recs : List InstanceInfo) (i : Nat) (ip : String) :
    (setIPFirst recs i ip).map InstanceInfo.id = recs.map InstanceInfo.id := by
  induction recs with
  | nil => rfl
  | cons r rest ih =>
    by_cases h : r.id = i <;> simp [setIPFirst, h, ih]

theorem setIPFirst_map_name (recs : List InstanceInfo) (i : Nat) (ip : String) :
    (setIPFirst recs i ip).map InstanceInfo.name = recs.map InstanceInfo.name := by
  induction recs with
  | nil => rfl
  | cons r rest ih =>
    by_cases h : r.id = i <;> simp [setIPFirst, h, ih]

theorem updateIPs_fields (p : Provider) (proj : String) (ids : List Nat) (st : State) :
    (updateIPs p proj ids st).userID = st.userID ∧
    (updateIPs p proj ids st).projects = st.projects ∧
    ((updateIPs p proj ids st).instancesOf proj).map InstanceInfo.id
      = (st.instancesOf proj).map InstanceInfo.id ∧
    ((updateIPs p proj ids st).instancesOf proj).map InstanceInfo.name
      = (st.instancesOf proj).map InstanceInfo.name := by
  induction ids generalizing st with
  | nil => exact ⟨rfl, rfl, rfl, rfl⟩
  | cons i rest ih =>
    have hstep : updateIPs p proj (i :: rest) st
        = updateIPs p proj rest
            (st.setInstances proj (setIPFirst (st.instancesOf proj) i (p.ipFn i))) := rfl
    rw [hstep]
    obtain ⟨h1, h2, h3, h4⟩ :=
      ih (st.setInstances proj (setIPFirst (st.instancesOf proj) i (p.ipFn i)))
    refine ⟨?_, ?_, ?_, ?_⟩
    · rw [h1, userID_setInstances]
    · rw [h2, projects_setInstances]
    · rw [h3, instancesOf_setInstances, setIPFirst_map_id]
    · rw [h4, instancesOf_setInstances, setIPFirst_map_name]

/-- The in-memory state right after the user and project bootstrap steps of a
run that starts from a missing state file: user id 1 and project id 2, the
first two entity ids the provider model assigns. -/
def prepStState (cfg : Config) : State :=
  { userID := 1, projects := [(cfg.projectName, 2)], instances := [] }

/-- The provider right after the user and project bootstrap steps of a run
that starts from a missing state file against a clean provider. -/
def prepProvider (cfg : Config) (sf : Nat → InstStatus) (ipf : Nat → String) : Provider :=
  { users := [(cfg.username, 1)], projects := [(cfg.projectName, 2)], nextEntityId := 3
    instances := [], nextId := 1, now := 0, createCalls := 0
    createFails := fun _ => false, statusFn := sf, ipFn := ipf }

theorem prepare_init_unfolded (cfg : Config) (sf : Nat → InstStatus) (ipf : Nat → String) :
    PrepareInfrastructure cfg none (initProvider sf ipf)
      = (match createInstances cfg (prepStState cfg) (some (prepStState cfg))
            (prepProvider cfg sf ipf) with
         | (.error e, _, disk3, p3) =>
           { result := .error e, disk := disk3, prov := p3, waited := 0 }
         | (.ok ids, st3, disk3, p3) =>
           match waitForInstancesToBeReady p3.statusFn ids 300 0 with
           | (.error e, w) => { result := .error e, disk := disk3, prov := p3, waited := w }
           | (.ok _, w) =>
             { result := .ok ()
               disk := some (updateIPs p3 cfg.projectName ids st3)
               prov := p3, waited := w }) := rfl

theorem prepare_init_create (cfg : Config) (sf : Nat → InstStatus) (ipf : Nat → String) :
    ∃ st3 p3,
      PrepareInfrastructure cfg none (initProvider sf ipf)
        = (match waitForInstancesToBeReady p3.statusFn
              (List.range' 1 cfg.instances.length) 300 0 with
           | (.error e, w) => { result := .error e, disk := some st3, prov := p3, waited := w }
           | (.ok _, w) =>
             { result := .ok ()
               disk := some (updateIPs p3 cfg.projectName
                 (List.range' 1 cfg.instances.length) st3)
               prov := p3, waited := w }) ∧
      st3.userID = 1 ∧ st3.projects = [(cfg.projectName, 2)] ∧
      st3.instancesOf cfg.projectName = recsFor cfg.instances 1 ∧
      p3.createCalls = cfg.instances.length ∧
      p3.statusFn = sf ∧ p3.ipFn = ipf ∧ p3.createFails = (fun _ => false) := by
  have hfresh2 : freshProv (prepProvider cfg sf ipf) := by
    intro inst h
    exact absurd h (List.not_mem_nil inst)
  obtain ⟨st3, p3, heq, hu, hpr, hinst, hc, hn, hnow, hrows, hcf, hsf, hip, hus, hps, hnen⟩ :=
    createLoop_ok cfg cfg.instances 0 (prepStState cfg) (prepProvider cfg sf ipf)
      (fun _ => rfl) hfresh2
  have hempty : (prepStState cfg).instancesOf cfg.projectName = [] := rfl
  have hci : createInstances cfg (prepStState cfg) (some (prepStState cfg))
      (prepProvider cfg sf ipf)
      = (.ok (List.range' 1 cfg.instances.length), st3, some st3, p3) := by
    unfold createInstances
    rw [hempty]
    simp only [List.length_nil, gt_iff_lt, Nat.lt_irrefl, if_false]
    exact heq ▸ rfl
  refine ⟨st3, p3, ?_, ?_, ?_, ?_, ?_, hsf, hip, hcf⟩
  · rw [prepare_init_unfolded, hci]
  · rw [hu]; rfl
  · rw [hpr]; rfl
  · rw [hinst]; rfl
  · rw [hc]; exact Nat.zero_add _

theorem prepare_fresh_init (cfg : Config) (sf : Nat → InstStatus) (ipf : Nat → String)
    (hready : ∀ i, sf i = InstStatus.ready) :
    ∃ stf pf,
      PrepareInfrastructure cfg none (initProvider sf ipf)
        = { result := .ok (), disk := some stf, prov := pf, waited := 0 } ∧
      stf.userID = 1 ∧
      stf.projectIdOf cfg.projectName = 2 ∧
      (stf.instancesOf cfg.projectName).map InstanceInfo.id
        = List.range' 1 cfg.instances.length ∧
      (stf.instancesOf cfg.projectName).map InstanceInfo.name
        = cfg.instances.map InstanceDefinition.name ∧
      pf.createCalls = cfg.instances.length ∧
      pf.statusFn = sf := by
  obtain ⟨st3, p3, heq, hu, hpr, hinst, hc, hsf, hip, hcf⟩ :=
    prepare_init_create cfg sf ipf
  have hwait : waitForInstancesToBeReady p3.statusFn
      (List.range' 1 cfg.instances.length) 300 0 = (.ok (), 0) := by
    rw [hsf]
    exact waitFor_ready sf _ 300 0 hready
  rw [hwait] at heq
  obtain ⟨hU, hP, hI, hN⟩ :=
    updateIPs_fields p3 cfg.projectName (List.range' 1 cfg.instances.length) st3
  refine ⟨updateIPs p3 cfg.projectName (List.range' 1 cfg.instances.length) st3, p3,
    heq, ?_, ?_, ?_, ?_, hc, hsf⟩
  · rw [hU, hu]
  · show (List.lookup cfg.projectName
        (updateIPs p3 cfg.projectName (List.range' 1 cfg.instances.length) st3).projects).getD 0 = 2
    rw [hP, hpr]
    simp [List.lookup]
  · rw [hI, hinst, recsFor_map_id]
  · rw [hN, hinst, recsFor_map_name]

theorem prepare_existing (cfg : Config) (disk : Option State) (p : Provider)
    (huid : ¬ (loadDisk disk).userID = 0)
    (hpid : ¬ (loadDisk disk).projectIdOf cfg.projectName = 0)
    (hrecs : (loadDisk disk).instancesOf cfg.projectName ≠ [])
    (hready : ∀ i, p.statusFn i = InstStatus.ready) :
    PrepareInfrastructure cfg disk p
      = { result := .ok ()
          disk := some (updateIPs p cfg.projectName
            (((loadDisk disk).instancesOf cfg.projectName).map InstanceInfo.id)
            (loadDisk disk))
          prov := p, waited := 0 } := by
  unfold PrepareInfrastructure
  dsimp only
  rw [if_neg huid]
  dsimp only
  rw [if_neg hpid]
  dsimp only
  rw [createInstances_existing cfg (loadDisk disk) disk p hrecs]
  dsimp only
  rw [waitFor_ready p.statusFn _ 300 0 hready]

/-- Claim C1: for every non-empty list of instance definitions and an
initially empty state store (missing state file, clean provider), running
PrepareInfrastructure twice with the same configuration leaves exactly one
persisted InstanceRecord per definition (the persisted records' names match
the definitions' names positionally), the second run issues zero
instance-create calls to the provider (the create-call counter is unchanged
from the first run), and with non-empty prior recorded state createInstances
returns exactly the recorded ids and touches neither state, disk nor
provider. -/
theorem claim1_reconcile_idempotent (cfg : Config) (sf : Nat → InstStatus)
    (ipf : Nat → String) (hne : cfg.instances ≠ [])
    (hready : ∀ i, sf i = InstStatus.ready) :
    (prepareTwice cfg none (initProvider sf ipf)).fst.result = .ok () ∧
    (prepareTwice cfg none (initProvider sf ipf)).snd.result = .ok () ∧
    (∃ stf, (prepareTwice cfg none (initProvider sf ipf)).snd.disk = some stf ∧
       (stf.instancesOf cfg.projectName).map InstanceInfo.name
         = cfg.instances.map InstanceDefinition.name) ∧
    (prepareTwice cfg none (initProvider sf ipf)).fst.prov.createCalls
      = cfg.instances.length ∧
    (prepareTwice cfg none (initProvider sf ipf)).snd.prov.createCalls
      = cfg.instances.length ∧
    (∀ st disk p, st.instancesOf cfg.projectName ≠ [] →
       createInstances cfg st disk p
         = (.ok ((st.instancesOf cfg.projectName).map InstanceInfo.id), st, disk, p)) := by
  obtain ⟨stf, pf, h1, huid1, hpid1, hids1, hnames1, hcalls1, hsf1⟩ :=
    prepare_fresh_init cfg sf ipf hready
  have hrecs1 : stf.instancesOf cfg.projectName ≠ [] := by
    intro h0
    rw [h0] at hnames1
    exact hne (List.map_eq_nil_iff.mp hnames1.symm)
  have h2 : PrepareInfrastructure cfg (some stf) pf
      = { result := .ok ()
          disk := some (updateIPs pf cfg.projectName
            ((stf.instancesOf cfg.projectName).map InstanceInfo.id) stf)
          prov := pf, waited := 0 } := by
    refine prepare_existing cfg (some stf) pf ?_ ?_ ?_ ?_
    · show ¬ stf.userID = 0
      rw [huid1]
      decide
    · show ¬ stf.projectIdOf cfg.projectName = 0
      rw [hpid1]
      decide
    · exact hrecs1
    · rw [hsf1]
      exact hready
  have hp2 : prepareTwice cfg none (initProvider sf ipf)
      = ({ result := .ok (), disk := some stf, prov := pf, waited := 0 },
         PrepareInfrastructure cfg (some stf) pf) := by
    unfold prepareTwice
    rw [h1]
  rw [hp2, h2]
  obtain ⟨hU2, hP2, hI2, hN2⟩ := updateIPs_fields pf cfg.projectName
    ((stf.instancesOf cfg.projectName).map InstanceInfo.id) stf
  refine ⟨rfl, rfl, ⟨_, rfl, ?_⟩, hcalls1, hcalls1, ?_⟩
  · rw [hN2, hnames1]
  · intro st disk p h
    exact createInstances_existing cfg st disk p h

/-- A configuration with one instance definition, used to instantiate proved
claims at concrete inputs. -/
def cfgW1 : Config :=
  { username := "smuu", projectName := "smuu"
    instances := [{ name := "validator-1", installCelestiaApp := true
                    installCelestiaNode := false }]
    goVersion := "1.23.0", celestiaAppVersion := "v3.4.2"
    celestiaNodeVersion := "v0.21.9" }

/-- Witness for C1 at a concrete one-instance configuration with an
immediately-ready provider. -/
theorem claim1_witness :
    cfgW1.instances ≠ [] ∧
    (prepareTwice cfgW1 none
      (initProvider (fun _ => InstStatus.ready) (fun _ => "203.0.113.7"))).snd.prov.createCalls
      = cfgW1.instances.length :=
  ⟨by decide,
   (claim1_reconcile_idempotent cfgW1 (fun _ => InstStatus.ready) (fun _ => "203.0.113.7")
      (by decide) (fun _ => rfl)).2.2.2.2.1⟩

/-- Claim C4: when no instance ever reports status ready, a reconciliation
run from an initially empty state store returns the timeout error no later
than the deadline plus one poll interval (300 s + 5 s, with remote calls
instantaneous in the model), and every InstanceRecord in the persisted state
still has an empty public-address field. -/
theorem claim4_readiness_timeout (cfg : Config) (sf : Nat → InstStatus)
    (ipf : Nat → String) (hne : cfg.instances ≠ [])
    (hnever : ∀ i, sf i ≠ InstStatus.ready) :
    (PrepareInfrastructure cfg none (initProvider sf ipf)).result
        = .error "instances not ready" ∧
    (PrepareInfrastructure cfg none (initProvider sf ipf)).waited ≤ 300 + 5 ∧
    ∃ stf, (PrepareInfrastructure cfg none (initProvider sf ipf)).disk = some stf ∧
      ∀ r ∈ stf.instancesOf cfg.projectName, r.publicIP = "" := by
  obtain ⟨st3, p3, heq, hu, hpr, hinst, hc, hsf, hip, hcf⟩ :=
    prepare_init_create cfg sf ipf
  have hidsne : List.range' 1 cfg.instances.length ≠ [] := by
    intro h0
    have := congrArg List.length h0
    simp at this
    exact hne this
  obtain ⟨hfst, hsnd⟩ :=
    waitFor_never sf (List.range' 1 cfg.instances.length) 300 hidsne hnever
  rw [hsf] at heq
  rcases hwp : waitForInstancesToBeReady sf (List.range' 1 cfg.instances.length) 300 0
    with ⟨res, w⟩
  rw [hwp] at heq hfst hsnd
  simp only at hfst hsnd
  subst hfst
  refine ⟨?_, ?_, st3, ?_, ?_⟩
  · rw [heq]
  · rw [heq]
    exact hsnd
  · rw [heq]
  · rw [hinst]
    exact recsFor_publicIP cfg.instances 1

/-- Witness for C4 at a concrete one-instance configuration whose instances
stay pending forever. -/
theorem claim4_witness :
    cfgW1.instances ≠ [] ∧
    (PrepareInfrastructure cfgW1 none
      (initProvider (fun _ => InstStatus.pending) (fun _ => ""))).result
        = .error "instances not ready" ∧
    (PrepareInfrastructure cfgW1 none
      (initProvider (fun _ => InstStatus.pending) (fun _ => ""))).waited ≤ 300 + 5 :=
  ⟨by decide,
   (claim4_readiness_timeout cfgW1 (fun _ => InstStatus.pending) (fun _ => "")
      (by decide) (fun _ h => nomatch h)).1,
   (claim4_readiness_timeout cfgW1 (fun _ => InstStatus.pending) (fun _ => "")
      (by decide) (fun _ h => nomatch h)).2.1⟩

theorem deleteLoop_all (ids : List Nat) (recs : List InstanceInfo) (p : Provider)
    (h : ∀ r ∈ recs, ids.contains r.id = true) :
    (deleteLoop ids recs p).fst = [] ∧
    (deleteLoop ids recs p).snd.nextId = p.nextId ∧
    (deleteLoop ids recs p).snd.now = p.now ∧
    (deleteLoop ids recs p).snd.createCalls = p.createCalls ∧
    (deleteLoop ids recs p).snd.createFails = p.createFails ∧
    (deleteLoop ids recs p).snd.statusFn = p.statusFn ∧
    (deleteLoop ids recs p).snd.ipFn = p.ipFn ∧
    (freshProv p → freshProv (deleteLoop ids recs p).snd) := by
  induction recs generalizing p with
  | nil =>
    exact ⟨rfl, rfl, rfl, rfl, rfl, rfl, rfl, fun hf => hf⟩
  | cons r rest ih =>
    have hr := h r (List.mem_cons_self r rest)
    have hstep : deleteLoop ids (r :: rest) p
        = deleteLoop ids rest (p.deleteByNames [r.name]) := by
      have hu : deleteLoop ids (r :: rest) p
          = if ids.contains r.id = true then deleteLoop ids rest (p.deleteByNames [r.name])
            else (r :: (deleteLoop ids rest p).fst, (deleteLoop ids rest p).snd) := rfl
      rw [hu, if_pos hr]
    rw [hstep]
    have hfr : freshProv p → freshProv (p.deleteByNames [r.name]) := by
      intro hf inst hinst
      exact hf inst (List.mem_of_mem_filter hinst)
    obtain ⟨h1, h2, h3, h4, h5, h6, h7, h8⟩ :=
      ih (p.deleteByNames [r.name]) (fun x hx => h x (List.mem_cons_of_mem r hx))
    exact ⟨h1, h2, h3, h4, h5, h6, h7, fun hf => h8 (hfr hf)⟩

theorem deleteAll_clears (cfg : Config) (st0 : State) (p0 : Provider)
    (hpid : ¬ st0.projectIdOf cfg.projectName = 0)
    (huid : ¬ st0.userID = 0)
    (hrecs : st0.instancesOf cfg.projectName ≠ []) :
    ∃ st3 p2,
      DeleteAllInstances cfg (some st0) p0 = (.ok (), some st3, p2) ∧
      st3.instancesOf cfg.projectName = [] ∧
      st3.userID = st0.userID ∧
      st3.projectIdOf cfg.projectName = st0.projectIdOf cfg.projectName ∧
      p2.nextId = p0.nextId ∧ p2.now = p0.now ∧ p2.createCalls = p0.createCalls ∧
      p2.createFails = p0.createFails ∧ p2.statusFn = p0.statusFn ∧
      p2.ipFn = p0.ipFn ∧
      (freshProv p0 → freshProv p2) := by
  have hids : ∀ r ∈ st0.instancesOf cfg.projectName,
      ((st0.instancesOf cfg.projectName).map InstanceInfo.id).contains r.id = true := by
    intro r hr
    simp only [List.contains_eq_any_beq, List.any_eq_true]
    exact ⟨r.id, List.mem_map_of_mem InstanceInfo.id hr, by simp⟩
  obtain ⟨h1, h2, h3, h4, h5, h6, h7, h8⟩ :=
    deleteLoop_all ((st0.instancesOf cfg.projectName).map InstanceInfo.id)
      (st0.instancesOf cfg.projectName) p0 hids
  have hlen0 : ¬ ((st0.instancesOf cfg.projectName).map InstanceInfo.id).length = 0 := by
    simp only [List.length_map]
    intro h0
    exact hrecs (List.length_eq_zero.mp h0)
  have hmain : DeleteAllInstances cfg (some st0) p0
      = (.ok (),
         some (((st0.setInstances cfg.projectName
            (deleteLoop ((st0.instancesOf cfg.projectName).map InstanceInfo.id)
              (st0.instancesOf cfg.projectName) p0).fst)).setInstances cfg.projectName []),
         (deleteLoop ((st0.instancesOf cfg.projectName).map InstanceInfo.id)
            (st0.instancesOf cfg.projectName) p0).snd) := by
    unfold DeleteAllInstances
    dsimp only
    rw [show loadDisk (some st0) = st0 from rfl]
    rw [if_neg hpid, if_neg huid]
    dsimp only
    rw [if_neg hlen0]
    rfl
  refine ⟨_, _, hmain, ?_, ?_, ?_, h2, h3, h4, h5, h6, h7, h8⟩
  · exact instancesOf_setInstances _ cfg.projectName []
  · rfl
  · rfl

theorem prepare_skip_create (cfg : Config) (disk : Option State) (p : Provider)
    (huid : ¬ (loadDisk disk).userID = 0)
    (hpid : ¬ (loadDisk disk).projectIdOf cfg.projectName = 0)
    (hempty : (loadDisk disk).instancesOf cfg.projectName = [])
    (hfail : ∀ k, p.createFails k = false) (hfresh : freshProv p)
    (hready : ∀ i, p.statusFn i = InstStatus.ready) :
    ∃ stf pf,
      PrepareInfrastructure cfg disk p
        = { result := .ok (), disk := some stf, prov := pf, waited := 0 } ∧
      (stf.instancesOf cfg.projectName).map InstanceInfo.id
        = List.range' p.nextId cfg.instances.length ∧
      (stf.instancesOf cfg.projectName).map InstanceInfo.name
        = cfg.instances.map InstanceDefinition.name ∧
      pf.createCalls = p.createCalls + cfg.instances.length := by
  obtain ⟨st3, p3, heq, hu, hpr, hinst, hc, hn, hnow, hrows, hcf, hsf, hip, hus, hps, hnen⟩ :=
    createLoop_ok cfg cfg.instances 0 (loadDisk disk) p hfail hfresh
  have hci : createInstances cfg (loadDisk disk) disk p
      = (.ok (List.range' p.nextId cfg.instances.length), st3, some st3, p3) := by
    unfold createInstances
    rw [hempty]
    simp only [List.length_nil, gt_iff_lt, Nat.lt_irrefl, if_false]
    exact heq ▸ rfl
  have hwait : waitForInstancesToBeReady p3.statusFn
      (List.range' p.nextId cfg.instances.length) 300 0 = (.ok (), 0) := by
    rw [hsf]
    exact waitFor_ready p.statusFn _ 300 0 hready
  have hmain : PrepareInfrastructure cfg disk p
      = { result := .ok ()
          disk := some (updateIPs p3 cfg.projectName
            (List.range' p.nextId cfg.instances.length) st3)
          prov := p3, waited := 0 } := by
    unfold PrepareInfrastructure
    dsimp only
    rw [if_neg huid]
    dsimp only
    rw [if_neg hpid]
    dsimp only
    rw [hci]
    dsimp only
    rw [hwait]
  obtain ⟨hU, hP, hI, hN⟩ := updateIPs_fields p3 cfg.projectName
    (List.range' p.nextId cfg.instances.length) st3
  refine ⟨_, p3, hmain, ?_, ?_, ?_⟩
  · rw [hI, hinst, hempty]
    simp only [List.nil_append]
    exact recsFor_map_id cfg.instances p.nextId
  · rw [hN, hinst, hempty]
    simp only [List.nil_append]
    exact recsFor_map_name cfg.instances p.nextId
  · rw [hc]

/-- Claim C5: after DeleteAllInstances succeeds for a project whose state
records K instances (K equal to the number of configured definitions), the
persisted instance list for that project is empty, and a subsequent
PrepareInfrastructure run creates K fresh instances whose provider-assigned
ids reuse none of the deleted instances' identifiers (the provider assigns
ids from a monotone counter, and every previously recorded id lies below
it). -/
theorem claim5_delete_then_recreate (cfg : Config) (st0 : State) (p0 : Provider)
    (hne : cfg.instances ≠ [])
    (hpid : ¬ st0.projectIdOf cfg.projectName = 0)
    (huid : ¬ st0.userID = 0)
    (hK : (st0.instancesOf cfg.projectName).length = cfg.instances.length)
    (hold : ∀ r ∈ st0.instancesOf cfg.projectName, r.id < p0.nextId)
    (hfail : ∀ k, p0.createFails k = false) (hfresh : freshProv p0)
    (hready : ∀ i, p0.statusFn i = InstStatus.ready) :
    ∃ st3 p2,
      DeleteAllInstances cfg (some st0) p0 = (.ok (), some st3, p2) ∧
      st3.instancesOf cfg.projectName = [] ∧
      ∃ stf pf,
        PrepareInfrastructure cfg (some st3) p2
          = { result := .ok (), disk := some stf, prov := pf, waited := 0 } ∧
        (stf.instancesOf cfg.projectName).length = cfg.instances.length ∧
        ∀ r ∈ stf.instancesOf cfg.projectName,
          ∀ r0 ∈ st0.instancesOf cfg.projectName, r.id ≠ r0.id := by
  have hrecs : st0.instancesOf cfg.projectName ≠ [] := by
    intro h0
    rw [h0] at hK
    exact hne (List.length_eq_zero.mp hK.symm)
  obtain ⟨st3, p2, hdel, hempty3, hu3, hp3, hnid, hnow, hcalls, hcf, hsf2, hipf, hfr⟩ :=
    deleteAll_clears cfg st0 p0 hpid huid hrecs
  obtain ⟨stf, pf, hprep, hids, hnames, hcalls2⟩ :=
    prepare_skip_create cfg (some st3) p2
      (by rw [show loadDisk (some st3) = st3 from rfl, hu3]; exact huid)
      (by rw [show loadDisk (some st3) = st3 from rfl]
          show ¬ st3.projectIdOf cfg.projectName = 0
          rw [hp3]; exact hpid)
      (by rw [show loadDisk (some st3) = st3 from rfl]; exact hempty3)
      (fun k => by rw [hcf]; exact hfail k)
      (hfr hfresh)
      (fun i => by rw [hsf2]; exact hready i)
  refine ⟨st3, p2, hdel, hempty3, stf, pf, hprep, ?_, ?_⟩
  · have hlen := congrArg List.length hids
    simp only [List.length_map, List.length_range'] at hlen
    exact hlen
  · intro r hr r0 hr0
    have hmem : r.id ∈ List.range' p2.nextId cfg.instances.length := by
      rw [← hids]
      exact List.mem_map_of_mem InstanceInfo.id hr
    have hge : p2.nextId ≤ r.id := (List.mem_range'_1.mp hmem).1
    rw [hnid] at hge
    intro he
    have h1 := hold r0 hr0
    omega

/-- A one-record persisted state matching cfgW1, for instantiating C5. -/
def stW5 : State :=
  { userID := 1, projects := [("smuu", 2)]
    instances := [("smuu", [{ id := 1, name := "validator-1", publicIP := "203.0.113.7" }])] }

/-- A provider that already carries the instance recorded in stW5. -/
def provW5 : Provider :=
  { users := [("smuu", 1)], projects := [("smuu", 2)], nextEntityId := 3
    instances := [{ id := 1, name := "smuu-validator-1-0", createdAt := 0, status := .pending }]
    nextId := 2, now := 1, createCalls := 1, createFails := fun _ => false
    statusFn := fun _ => InstStatus.ready, ipFn := fun _ => "203.0.113.8" }

/-- Witness for C5 at a concrete one-instance project. -/
theorem claim5_witness :
    ¬ stW5.projectIdOf cfgW1.projectName = 0 ∧
    ∃ st3 p2, DeleteAllInstances cfgW1 (some stW5) provW5 = (.ok (), some st3, p2) ∧
      st3.instancesOf cfgW1.projectName = [] := by
  refine ⟨by decide, ?_⟩
  obtain ⟨st3, p2, hdel, hempty, _⟩ :=
    claim5_delete_then_recreate cfgW1 stW5 provW5 (by decide) (by decide) (by decide)
      (by decide) (by decide) (fun _ => rfl) (by unfold freshProv; decide) (fun _ => rfl)
  exact ⟨st3, p2, hdel, hempty⟩

theorem createLoop_ok_shape (cfg : Config) (defs : List InstanceDefinition) (idx : Nat)
    (st : State) (p : Provider) (ids : List Nat) (st2 : State) (p2 : Provider)
    (h : createLoop cfg idx defs st p = (.ok ids, st2, p2)) :
    ids.length = defs.length ∧
    st2.instancesOf cfg.projectName
      = st.instancesOf cfg.projectName
        ++ List.zipWith (fun d i => InstanceInfo.mk i d.name "") defs ids := by
  induction defs generalizing idx st p ids st2 p2 with
  | nil =>
    simp only [createLoop, Prod.mk.injEq, Except.ok.injEq] at h
    obtain ⟨h1, h2, h3⟩ := h
    subst h1
    subst h2
    simp
  | cons d rest ih =>
    rw [show createLoop cfg idx (d :: rest) st p
        = (match createInstance cfg p idx d with
           | (.error e, p1) => (.error e, st, p1)
           | (.ok instId, p1) =>
             match createLoop cfg (idx + 1) rest
                 (st.setInstances cfg.projectName
                   (st.instancesOf cfg.projectName
                     ++ [{ id := instId, name := d.name, publicIP := "" }])) p1 with
             | (.ok ids2, st3, p3) => (.ok (instId :: ids2), st3, p3)
             | (.error e, st3, p3) => (.error e, st3, p3)) from rfl] at h
    rcases hci : createInstance cfg p idx d with ⟨res, p1⟩
    rw [hci] at h
    cases res with
    | error e =>
      simp at h
    | ok instId =>
      dsimp only at h
      rcases hcl : createLoop cfg (idx + 1) rest
          (st.setInstances cfg.projectName
            (st.instancesOf cfg.projectName
              ++ [{ id := instId, name := d.name, publicIP := "" }])) p1
        with ⟨res2, st3, p3⟩
      rw [hcl] at h
      cases res2 with
      | error e => simp at h
      | ok ids2 =>
        simp only [Prod.mk.injEq, Except.ok.injEq] at h
        obtain ⟨h1, h2, h3⟩ := h
        subst h2
        subst h3
        subst h1
        obtain ⟨hlen, hrecs⟩ := ih (idx + 1) _ p1 ids2 _ _ hcl
        constructor
        · simp [hlen]
        · rw [hrecs, instancesOf_setInstances, List.append_assoc]
          rfl

/-- Claim C2 (amended): during fleet creation each InstanceRecord is appended
to the in-memory state as its create succeeds, but the state is persisted to
disk only once, after the whole fleet loop succeeds: on success the disk
receives the final state with exactly one record per definition; when a
create call fails partway through the fleet, the disk is left exactly as it
was before, so the records appended in memory are not persisted. -/
theorem claim2_amended_persist_once (cfg : Config) (st : State) (disk : Option State)
    (p : Provider) (hempty : st.instancesOf cfg.projectName = []) :
    (∀ e, (createInstances cfg st disk p).fst = .error e →
       (createInstances cfg st disk p).snd.snd.fst = disk) ∧
    (∀ ids, (createInstances cfg st disk p).fst = .ok ids →
       (createInstances cfg st disk p).snd.snd.fst
           = some (createInstances cfg st disk p).snd.fst ∧
       ids.length = cfg.instances.length ∧
       (createInstances cfg st disk p).snd.fst.instancesOf cfg.projectName
           = List.zipWith (fun d i => InstanceInfo.mk i d.name "") cfg.instances ids) := by
  have hbranch : createInstances cfg st disk p
      = match createLoop cfg 0 cfg.instances st p with
        | (.ok ids, st1, p1) => (.ok ids, st1, some st1, p1)
        | (.error e, st1, p1) => (.error e, st1, disk, p1) := by
    unfold createInstances
    rw [hempty]
    simp
  rcases hcl : createLoop cfg 0 cfg.instances st p with ⟨res, st1, p1⟩
  rw [hcl] at hbranch
  cases res with
  | error e0 =>
    constructor
    · intro e he
      rw [hbranch]
    · intro ids hids
      rw [hbranch] at hids
      simp at hids
  | ok ids0 =>
    constructor
    · intro e he
      rw [hbranch] at he
      simp at he
    · intro ids hids
      rw [hbranch] at hids
      simp only [Except.ok.injEq] at hids
      subst hids
      obtain ⟨hlen, hrecs⟩ := createLoop_ok_shape cfg cfg.instances 0 st p ids0 st1 p1 hcl
      rw [hbranch]
      refine ⟨rfl, hlen, ?_⟩
      rw [hrecs, hempty]
      simp

/-- The configuration of the C2 counterexample: two instance definitions. -/
def cfgC2 : Config :=
  { username := "u", projectName := "p"
    instances := [{ name := "a", installCelestiaApp := true, installCelestiaNode := false },
                  { name := "b", installCelestiaApp := true, installCelestiaNode := false }]
    goVersion := "1.23.0", celestiaAppVersion := "v3", celestiaNodeVersion := "v0" }

/-- The provider of the C2 counterexample: the second create call fails. -/
def provC2 : Provider :=
  { initProvider (fun _ => InstStatus.pending) (fun _ => "") with
      createFails := fun k => k == 1 }

/-- Claim C2 counterexample: with two definitions and a provider whose second
create call fails, the run aborts partway through the fleet after the first
create succeeded (the provider holds instance 1 and two create calls were
issued), yet the persisted state records no instance at all.  The record of
the successfully created instance was therefore not persisted to disk before
the next create request was issued, contradicting the claim. -/
theorem claim2_counterexample :
    (PrepareInfrastructure cfgC2 none provC2).result = .error "failed to create instance" ∧
    (PrepareInfrastructure cfgC2 none provC2).prov.createCalls = 2 ∧
    (PrepareInfrastructure cfgC2 none provC2).prov.instances.map ProvInstance.id = [1] ∧
    ∃ stf, (PrepareInfrastructure cfgC2 none provC2).disk = some stf ∧
      stf.instancesOf "p" = [] :=
  ⟨rfl, rfl, rfl, _, rfl, rfl⟩

/-- Witness for the amended C2 theorem at a concrete one-instance
configuration whose single create succeeds. -/
theorem claim2_witness :
    (loadDisk none).instancesOf cfgW1.projectName = [] ∧
    (createInstances cfgW1 (loadDisk none) none
        (initProvider (fun _ => InstStatus.ready) (fun _ => ""))).snd.snd.fst
      = some (createInstances cfgW1 (loadDisk none) none
          (initProvider (fun _ => InstStatus.ready) (fun _ => ""))).snd.fst :=
  ⟨rfl,
   ((claim2_amended_persist_once cfgW1 (loadDisk none) none
      (initProvider (fun _ => InstStatus.ready) (fun _ => "")) rfl).2 [1] rfl).1⟩

/-- Claim C8: LoadState returns an empty-but-initialized state (zero user id,
empty maps) rather than an error when the state file does not exist, and
back-fills nil or missing maps when the file exists but omits them, while
preserving the user id and any maps that are present, so callers never need a
first-run branch. -/
theorem claim8_loadState_missing_and_backfill (f : StateFile) :
    LoadState StateRead.missing
      = .ok { userID := 0, projects := [], instances := [] } ∧
    (∃ st, LoadState (StateRead.content f) = .ok st ∧
       st.userID = f.userID ∧
       st.projects = f.projects.getD [] ∧
       st.instances = f.instances.getD []) ∧
    (f.projects = none →
       ∃ st, LoadState (StateRead.content f) = .ok st ∧ st.projects = []) ∧
    (f.instances = none →
       ∃ st, LoadState (StateRead.content f) = .ok st ∧ st.instances = []) := by
  refine ⟨rfl, ⟨_, rfl, rfl, rfl, rfl⟩, ?_, ?_⟩
  · intro h
    exact ⟨_, rfl, by simp [h]⟩
  · intro h
    exact ⟨_, rfl, by simp [h]⟩

/-- Witness for C8 at a file whose maps are both null. -/
theorem claim8_witness :
    LoadState StateRead.missing
      = .ok { userID := 0, projects := [], instances := [] } ∧
    ∃ st, LoadState (StateRead.content { userID := 7, projects := none, instances := none })
      = .ok st ∧ st.projects = [] :=
  ⟨(claim8_loadState_missing_and_backfill
      { userID := 7, projects := none, instances := none }).1,
   (claim8_loadState_missing_and_backfill
      { userID := 7, projects := none, instances := none }).2.2.1 rfl⟩

/-- Default node value for indexing. -/
def noNode : CelestiaNode :=
  { name := "", signerKey := { kind := .ed25519, seedBytes := 0 }
    networkKey := { kind := .ed25519, seedBytes := 0 }, homeDir := "", publicIP := "" }

/-- Default registration value for indexing. -/
def noReg : Registration := { name := "", homeDir := "", publicIP := "" }

/-- The nodes a sequence of CreateGenesisNode calls produces, when the shared
generator has already consumed c reads: node k draws its signing key at
stream position c + 2k and its network key at position c + 2k + 1. -/
def nodesFrom (stream : Int → Nat → Nat) (seed : Int) :
    Nat → List Registration → List CelestiaNode
  | _, [] => []
  | c, r :: rest =>
    { name := r.name
      signerKey := { kind := .ed25519, seedBytes := stream seed c }
      networkKey := { kind := .ed25519, seedBytes := stream seed (c + 1) }
      homeDir := r.homeDir, publicIP := r.publicIP } :: nodesFrom stream seed (c + 2) rest

theorem nodesFrom_length (stream : Int → Nat → Nat) (seed : Int)
    (regs : List Registration) : ∀ c, (nodesFrom stream seed c regs).length = regs.length := by
  induction regs with
  | nil => intro c; rfl
  | cons r rest ih => intro c; simp [nodesFrom, ih]

theorem nodesFrom_getD (stream : Int → Nat → Nat) (seed : Int)
    (regs : List Registration) :
    ∀ c i, i < regs.length →
      (nodesFrom stream seed c regs).getD i noNode
        = { name := (regs.getD i noReg).name
            signerKey := { kind := .ed25519, seedBytes := stream seed (c + 2 * i) }
            networkKey := { kind := .ed25519, seedBytes := stream seed (c + 2 * i + 1) }
            homeDir := (regs.getD i noReg).homeDir
            publicIP := (regs.getD i noReg).publicIP } := by
  induction regs with
  | nil =>
    intro c i hi
    simp at hi
  | cons r rest ih =>
    intro c i hi
    cases i with
    | zero =>
      simp [nodesFrom]
    | succ j =>
      have hj : j < rest.length := by simpa using hi
      show (nodesFrom stream seed (c + 2) rest).getD j noNode = _
      rw [ih (c + 2) j hj]
      have e1 : c + 2 + 2 * j = c + 2 * (j + 1) := by omega
      rw [e1]
      rfl

theorem bootstrapFold (stream : Int → Nat → Nat) (regs : List Registration)
    (net0 : CelestiaNetwork) :
    regs.foldl (fun net r => CreateGenesisNode stream net r.name r.homeDir r.publicIP) net0
      = { chainID := net0.chainID
          validators := net0.validators
            ++ (nodesFrom stream net0.keygen.seed net0.keygen.consumed regs).map
                 GenesisValidatorOf
          keygen := { seed := net0.keygen.seed
                      consumed := net0.keygen.consumed + 2 * regs.length }
          nodes := net0.nodes ++ nodesFrom stream net0.keygen.seed net0.keygen.consumed regs } := by
  induction regs generalizing net0 with
  | nil =>
    obtain ⟨cid, vals, ⟨sd, consumed⟩, nds⟩ := net0
    simp [nodesFrom]
  | cons r rest ih =>
    rw [List.foldl_cons, ih]
    obtain ⟨cid, vals, ⟨sd, consumed⟩, nds⟩ := net0
    simp [CreateGenesisNode, keyGenerator.generate, GenesisValidatorOf, nodesFrom,
      List.append_assoc]
    omega

/-- Claim C3: for a fixed generator seed (42, fixed in NewCelestiaNetwork)
and a fixed node-registration order, the bootstrap run is a function of the
seeded byte stream and the registration list alone — so two independent runs
produce identical signing and network key pairs for every node and an
identical exported genesis document.  Moreover the keys are drawn from the
single sequential generator in registration order, signing key first: node i
draws its signing key at stream position 2i and its network key at position
2i + 1, the generator ends fully consumed (2 reads per node), and the
genesis validator list is exactly the node list in registration order. -/
theorem claim3_deterministic_bootstrap (stream : Int → Nat → Nat) (chainID : String)
    (regs : List Registration) (i : Nat) (hi : i < regs.length) :
    (bootstrapRun stream chainID regs).nodes = nodesFrom stream 42 0 regs ∧
    (bootstrapRun stream chainID regs).nodes.length = regs.length ∧
    (bootstrapRun stream chainID regs).keygen
      = { seed := 42, consumed := 2 * regs.length } ∧
    ((bootstrapRun stream chainID regs).nodes.getD i noNode).signerKey
      = { kind := .ed25519, seedBytes := stream 42 (2 * i) } ∧
    ((bootstrapRun stream chainID regs).nodes.getD i noNode).networkKey
      = { kind := .ed25519, seedBytes := stream 42 (2 * i + 1) } ∧
    (bootstrapRun stream chainID regs).validators
      = (bootstrapRun stream chainID regs).nodes.map GenesisValidatorOf ∧
    ∀ lib, exportGenesis (bootstrapRun stream chainID regs) lib
      = { chainID := chainID
          validators := (nodesFrom stream 42 0 regs).map GenesisValidatorOf
          maxBytes := lib } := by
  have hfold := bootstrapFold stream regs (NewCelestiaNetwork chainID)
  have hrun : bootstrapRun stream chainID regs
      = { chainID := chainID
          validators := (nodesFrom stream 42 0 regs).map GenesisValidatorOf
          keygen := { seed := 42, consumed := 0 + 2 * regs.length }
          nodes := nodesFrom stream 42 0 regs } := by
    rw [show bootstrapRun stream chainID regs
        = regs.foldl (fun net r => CreateGenesisNode stream net r.name r.homeDir r.publicIP)
            (NewCelestiaNetwork chainID) from rfl, hfold]
    rfl
  rw [hrun]
  dsimp only
  have hgetD := nodesFrom_getD stream 42 regs 0 i hi
  refine ⟨rfl, nodesFrom_length stream 42 regs 0, by simp, ?_, ?_, rfl, fun lib => rfl⟩
  · rw [hgetD]
    simp
  · rw [hgetD]
    simp

/-- Witness for C3 at one registration and an identity byte stream. -/
theorem claim3_witness :
    (0 : Nat) < ([{ name := "v1", homeDir := "/root/.celestia-app", publicIP := "10.0.0.1" }]
        : List Registration).length ∧
    ((bootstrapRun (fun _ n => n) "test-chain"
        [{ name := "v1", homeDir := "/root/.celestia-app", publicIP := "10.0.0.1" }]).nodes.getD
        0 noNode).signerKey = { kind := .ed25519, seedBytes := 0 } ∧
    ((bootstrapRun (fun _ n => n) "test-chain"
        [{ name := "v1", homeDir := "/root/.celestia-app", publicIP := "10.0.0.1" }]).nodes.getD
        0 noNode).networkKey = { kind := .ed25519, seedBytes := 1 } :=
  ⟨by decide,
   (claim3_deterministic_bootstrap (fun _ n => n) "test-chain"
      [{ name := "v1", homeDir := "/root/.celestia-app", publicIP := "10.0.0.1" }] 0
      (by decide)).2.2.2.1,
   (claim3_deterministic_bootstrap (fun _ n => n) "test-chain"
      [{ name := "v1", homeDir := "/root/.celestia-app", publicIP := "10.0.0.1" }] 0
      (by decide)).2.2.2.2.1⟩

/-- Default instance record for indexing. -/
def noInst : InstanceInfo := { id := 0, name := "", publicIP := "" }

theorem installGoPass_getD (ssh : SshAction → Bool) (cfg : Config)
    (recs : List InstanceInfo) (i : Nat) (hi : i < recs.length) :
    (installGoPass ssh cfg recs).getD i []
      = (if (recs.getD i noInst).publicIP = "" then []
         else (goInstallWorker ssh cfg.goVersion (recs.getD i noInst).publicIP).fst) := by
  induction recs generalizing i with
  | nil => simp at hi
  | cons r rest ih =>
    cases i with
    | zero => rfl
    | succ j =>
      have hj : j < rest.length := by simpa using hi
      exact ih j hj

theorem installAppPassFrom_getD (ssh : SshAction → Bool) (cfg : Config)
    (recs : List InstanceInfo) :
    ∀ i0 i, i < recs.length →
      (installAppPassFrom ssh cfg i0 recs).getD i []
        = appBodyAt ssh cfg (i0 + i) (recs.getD i noInst) := by
  induction recs with
  | nil => intro i0 i hi; simp at hi
  | cons r rest ih =>
    intro i0 i hi
    cases i with
    | zero =>
      show appBodyAt ssh cfg i0 r = appBodyAt ssh cfg (i0 + 0) r
      rw [Nat.add_zero]
    | succ j =>
      have hj : j < rest.length := by simpa using hi
      have hrec := ih (i0 + 1) j hj
      rw [show (installAppPassFrom ssh cfg i0 (r :: rest)).getD (j + 1) []
          = (installAppPassFrom ssh cfg (i0 + 1) rest).getD j [] from rfl, hrec]
      have e : i0 + 1 + j = i0 + (j + 1) := by omega
      rw [e]
      rfl

theorem installNodePassFrom_getD (ssh : SshAction → Bool) (cfg : Config)
    (recs : List InstanceInfo) :
    ∀ i0 i, i < recs.length →
      (installNodePassFrom ssh cfg i0 recs).getD i []
        = nodeBodyAt ssh cfg (i0 + i) (recs.getD i noInst) := by
  induction recs with
  | nil => intro i0 i hi; simp at hi
  | cons r rest ih =>
    intro i0 i hi
    cases i with
    | zero =>
      show nodeBodyAt ssh cfg i0 r = nodeBodyAt ssh cfg (i0 + 0) r
      rw [Nat.add_zero]
    | succ j =>
      have hj : j < rest.length := by simpa using hi
      have hrec := ih (i0 + 1) j hj
      rw [show (installNodePassFrom ssh cfg i0 (r :: rest)).getD (j + 1) []
          = (installNodePassFrom ssh cfg (i0 + 1) rest).getD j [] from rfl, hrec]
      have e : i0 + 1 + j = i0 + (j + 1) := by omega
      rw [e]
      rfl

theorem goInstallWorker_probe_ok (ssh : SshAction → Bool) (v host : String)
    (h : ssh (SshAction.exec host goCheckCmd) = true) :
    (goInstallWorker ssh v host).fst = [SshAction.exec host goCheckCmd] := by
  unfold goInstallWorker
  rw [if_pos h]

theorem appInstallWorker_probe_ok (ssh : SshAction → Bool) (v host : String)
    (h : ssh (SshAction.exec host appCheckCmd) = true) :
    (appInstallWorker ssh v host).fst = [SshAction.exec host appCheckCmd] := by
  unfold appInstallWorker
  rw [if_pos h]

theorem nodeInstallWorker_probe_ok (ssh : SshAction → Bool) (v host : String)
    (h : ssh (SshAction.exec host nodeCheckCmd) = true) :
    (nodeInstallWorker ssh v host).fst = [SshAction.exec host nodeCheckCmd] := by
  unfold nodeInstallWorker
  rw [if_pos h]

/-- Claim C6: for every instance whose presence probe reports success (the
remote probe command exits 0), the install pass never copies the installer
script to that host and never invokes the installer for that action on that
host: the only remote operation issued for that instance is the probe itself.
This holds for each of the Go, Celestia App and Celestia Node passes. -/
theorem claim6_probe_short_circuit (ssh : SshAction → Bool) (cfg : Config)
    (recs : List InstanceInfo) (i : Nat) (hi : i < recs.length) :
    (ssh (SshAction.exec (recs.getD i noInst).publicIP goCheckCmd) = true →
       ∀ a ∈ (installGoPass ssh cfg recs).getD i [],
         a = SshAction.exec (recs.getD i noInst).publicIP goCheckCmd) ∧
    (ssh (SshAction.exec (recs.getD i noInst).publicIP appCheckCmd) = true →
       ∀ a ∈ (installAppPass ssh cfg recs).getD i [],
         a = SshAction.exec (recs.getD i noInst).publicIP appCheckCmd) ∧
    (ssh (SshAction.exec (recs.getD i noInst).publicIP nodeCheckCmd) = true →
       ∀ a ∈ (installNodePass ssh cfg recs).getD i [],
         a = SshAction.exec (recs.getD i noInst).publicIP nodeCheckCmd) := by
  refine ⟨?_, ?_, ?_⟩
  · intro hprobe a ha
    rw [installGoPass_getD ssh cfg recs i hi] at ha
    by_cases hip : (recs.getD i noInst).publicIP = ""
    · rw [if_pos hip] at ha
      simp at ha
    · rw [if_neg hip, goInstallWorker_probe_ok ssh cfg.goVersion _ hprobe] at ha
      simpa using ha
  · intro hprobe a ha
    rw [show installAppPass ssh cfg recs = installAppPassFrom ssh cfg 0 recs from rfl,
      installAppPassFrom_getD ssh cfg recs 0 i hi, Nat.zero_add] at ha
    unfold appBodyAt at ha
    by_cases hip : (recs.getD i noInst).publicIP = ""
    · rw [if_pos hip] at ha
      simp at ha
    · rw [if_neg hip] at ha
      cases hd : cfg.instances.get? i with
      | none =>
        rw [hd] at ha
        simp at ha
      | some d =>
        rw [hd] at ha
        dsimp only at ha
        by_cases hflag : d.installCelestiaApp = true
        · rw [if_pos hflag,
            appInstallWorker_probe_ok ssh cfg.celestiaAppVersion _ hprobe] at ha
          simpa using ha
        · rw [if_neg hflag] at ha
          simp at ha
  · intro hprobe a ha
    rw [show installNodePass ssh cfg recs = installNodePassFrom ssh cfg 0 recs from rfl,
      installNodePassFrom_getD ssh cfg recs 0 i hi, Nat.zero_add] at ha
    unfold nodeBodyAt at ha
    by_cases hip : (recs.getD i noInst).publicIP = ""
    · rw [if_pos hip] at ha
      simp at ha
    · rw [if_neg hip] at ha
      cases hd : cfg.instances.get? i with
      | none =>
        rw [hd] at ha
        simp at ha
      | some d =>
        rw [hd] at ha
        dsimp only at ha
        by_cases hflag : d.installCelestiaNode = true
        · rw [if_pos hflag,
            nodeInstallWorker_probe_ok ssh cfg.celestiaNodeVersion _ hprobe] at ha
          simpa using ha
        · rw [if_neg hflag] at ha
          simp at ha

/-- A one-record instance list with a public IP, to instantiate the installer
claims. -/
def recsW : List InstanceInfo := [{ id := 1, name := "validator-1", publicIP := "10.0.0.1" }]

/-- Witness for C6: with an always-succeeding probe oracle, the Go pass
issues nothing but the probe for the single instance. -/
theorem claim6_witness :
    ((fun _ => true) (SshAction.exec (recsW.getD 0 noInst).publicIP goCheckCmd) = true) ∧
    (∀ a ∈ (installGoPass (fun _ => true) cfgW1 recsW).getD 0 [],
       a = SshAction.exec (recsW.getD 0 noInst).publicIP goCheckCmd) :=
  ⟨rfl, (claim6_probe_short_circuit (fun _ => true) cfgW1 recsW 0 (by decide)).1 rfl⟩

/-- Claim C9: an install pass pairs the i-th persisted record with the i-th
configured definition positionally by index, never by name: a record at an
index at or past the end of the configured list is always skipped, and a
record whose index carries a definition receives the component exactly when
that definition's flag for the component is set (and the record has a public
IP). -/
theorem claim9_positional_pairing (ssh : SshAction → Bool) (cfg : Config)
    (recs : List InstanceInfo) (i : Nat) (hi : i < recs.length) :
    (cfg.instances.length ≤ i →
       (installAppPass ssh cfg recs).getD i [] = [] ∧
       (installNodePass ssh cfg recs).getD i [] = []) ∧
    (∀ d, cfg.instances.get? i = some d →
       (installAppPass ssh cfg recs).getD i []
         = (if (recs.getD i noInst).publicIP = "" then []
            else if d.installCelestiaApp then
              (appInstallWorker ssh cfg.celestiaAppVersion (recs.getD i noInst).publicIP).fst
            else []) ∧
       (installNodePass ssh cfg recs).getD i []
         = (if (recs.getD i noInst).publicIP = "" then []
            else if d.installCelestiaNode then
              (nodeInstallWorker ssh cfg.celestiaNodeVersion (recs.getD i noInst).publicIP).fst
            else [])) := by
  have happ : (installAppPass ssh cfg recs).getD i []
      = appBodyAt ssh cfg i (recs.getD i noInst) := by
    rw [show installAppPass ssh cfg recs = installAppPassFrom ssh cfg 0 recs from rfl,
      installAppPassFrom_getD ssh cfg recs 0 i hi, Nat.zero_add]
  have hnode : (installNodePass ssh cfg recs).getD i []
      = nodeBodyAt ssh cfg i (recs.getD i noInst) := by
    rw [show installNodePass ssh cfg recs = installNodePassFrom ssh cfg 0 recs from rfl,
      installNodePassFrom_getD ssh cfg recs 0 i hi, Nat.zero_add]
  constructor
  · intro hlong
    have hnone : cfg.instances.get? i = none := List.get?_eq_none.mpr hlong
    constructor
    · rw [happ]
      unfold appBodyAt
      rw [hnone]
      by_cases hip : (recs.getD i noInst).publicIP = ""
      · rw [if_pos hip]
      · rw [if_neg hip]
    · rw [hnode]
      unfold nodeBodyAt
      rw [hnone]
      by_cases hip : (recs.getD i noInst).publicIP = ""
      · rw [if_pos hip]
      · rw [if_neg hip]
  · intro d hd
    constructor
    · rw [happ]
      unfold appBodyAt
      rw [hd]
    · rw [hnode]
      unfold nodeBodyAt
      rw [hd]

/-- Witness for C9: the single record at index 0 is paired with the single
definition at index 0, which requests the app component. -/
theorem claim9_witness :
    cfgW1.instances.get? 0
      = some { name := "validator-1", installCelestiaApp := true
               installCelestiaNode := false } ∧
    (installAppPass (fun _ => false) cfgW1 recsW).getD 0 []
      = (if (recsW.getD 0 noInst).publicIP = "" then []
         else if ({ name := "validator-1", installCelestiaApp := true
                    installCelestiaNode := false } : InstanceDefinition).installCelestiaApp then
           (appInstallWorker (fun _ => false) cfgW1.celestiaAppVersion
             (recsW.getD 0 noInst).publicIP).fst
         else []) :=
  ⟨rfl, ((claim9_positional_pairing (fun _ => false) cfgW1 recsW 0 (by decide)).2
    { name := "validator-1", installCelestiaApp := true, installCelestiaNode := false }
    rfl).1⟩

/-- Claim C7 (amended): the genesis stage of SetupNetwork exports exactly one
genesis document from the completed network descriptor and unconditionally
overwrites the consensus block MaxBytes with 104857600 — a value above the
ceiling is thereby clamped, but a value strictly below it is raised to the
ceiling rather than left unaltered — and then writes the identical serialized
genesis bytes to every node. -/
theorem claim7_amended_genesis_distribution (net : CelestiaNetwork) (lib : Nat) :
    (setupNetworkGenesisStage net lib).fst.maxBytes = 104857600 ∧
    (setupNetworkGenesisStage net lib).snd.count SetupEvent.exportCall = 1 ∧
    (∀ h pth c, SetupEvent.writeFile h pth c ∈ (setupNetworkGenesisStage net lib).snd →
       c = serializeGenesis (setupNetworkGenesisStage net lib).fst) ∧
    (∀ nd ∈ net.nodes,
       SetupEvent.writeFile nd.publicIP (nd.homeDir ++ "/config/genesis.json")
         (serializeGenesis (setupNetworkGenesisStage net lib).fst)
         ∈ (setupNetworkGenesisStage net lib).snd) := by
  have hd : (setupNetworkGenesisStage net lib).fst
      = { chainID := net.chainID, validators := net.validators
          maxBytes := 104857600 } := rfl
  have he : (setupNetworkGenesisStage net lib).snd
      = SetupEvent.exportCall ::
        (net.nodes.map fun nd =>
          [SetupEvent.exec nd.publicIP ("rm -f " ++ nd.homeDir ++ "/config/genesis.json"),
           SetupEvent.writeFile nd.publicIP (nd.homeDir ++ "/config/genesis.json")
             (serializeGenesis { chainID := net.chainID, validators := net.validators
                                 maxBytes := 104857600 }),
           SetupEvent.exec nd.publicIP
             ("chmod 644 " ++ nd.homeDir ++ "/config/genesis.json")]).flatten := rfl
  refine ⟨by rw [hd], ?_, ?_, ?_⟩
  · rw [he]
    have h0 : SetupEvent.exportCall ∉
        (net.nodes.map fun nd =>
          [SetupEvent.exec nd.publicIP ("rm -f " ++ nd.homeDir ++ "/config/genesis.json"),
           SetupEvent.writeFile nd.publicIP (nd.homeDir ++ "/config/genesis.json")
             (serializeGenesis { chainID := net.chainID, validators := net.validators
                                 maxBytes := 104857600 }),
           SetupEvent.exec nd.publicIP
             ("chmod 644 " ++ nd.homeDir ++ "/config/genesis.json")]).flatten := by
      intro hmem
      rw [List.mem_flatten] at hmem
      obtain ⟨l, hl, hal⟩ := hmem
      rw [List.mem_map] at hl
      obtain ⟨nd, _, rfl⟩ := hl
      simp at hal
    rw [List.count_cons_self, List.count_eq_zero.mpr h0]
  · intro h pth c hc
    rw [he] at hc
    rcases List.mem_cons.mp hc with h1 | h1
    · exact absurd h1 (by simp)
    · rw [List.mem_flatten] at h1
      obtain ⟨l, hl, hal⟩ := h1
      rw [List.mem_map] at hl
      obtain ⟨nd, _, rfl⟩ := hl
      rw [hd]
      simp at hal
      exact hal.2.2
  · intro nd hnd
    rw [he, hd]
    refine List.mem_cons_of_mem _ ?_
    rw [List.mem_flatten]
    refine ⟨_, List.mem_map_of_mem _ hnd, by simp⟩

/-- A one-node network built by the bootstrap sequencer, for instantiating
the genesis-distribution claims. -/
def netC7 : CelestiaNetwork :=
  bootstrapRun (fun _ n => n) "test-chain"
    [{ name := "v1", homeDir := "/root/.celestia-app", publicIP := "10.0.0.1" }]

/-- Claim C7 counterexample: when the exported genesis reports a block
MaxBytes of 1 — a value already at or below the 104857600 ceiling, which the
claim says is not altered — SetupNetwork still overwrites it with 104857600:
the assignment is unconditional, not a clamp. -/
theorem claim7_counterexample :
    (1 : Nat) ≤ 104857600 ∧
    (setupNetworkGenesisStage netC7 1).fst.maxBytes = 104857600 ∧
    (setupNetworkGenesisStage netC7 1).fst.maxBytes ≠ 1 :=
  ⟨by norm_num, rfl, by decide⟩

/-- Witness for the amended C7 theorem at the one-node network with the
external default of 128000000 (the value named in the code comment). -/
theorem claim7_witness :
    (setupNetworkGenesisStage netC7 128000000).fst.maxBytes = 104857600 ∧
    (setupNetworkGenesisStage netC7 128000000).snd.count SetupEvent.exportCall = 1 :=
  ⟨(claim7_amended_genesis_distribution netC7 128000000).1,
   (claim7_amended_genesis_distribution netC7 128000000).2.1⟩

theorem countP_set_balance {α : Type} (p : α → Bool) (l : List α) (i : Nat) (a b : α)
    (h : l.get? i = some b) :
    (l.set i a).countP p + (if p b then 1 else 0)
      = l.countP p + (if p a then 1 else 0) := by
  induction l generalizing i with
  | nil => simp at h
  | cons x xs ih =>
    cases i with
    | zero =>
      have hb : x = b := by simpa using h
      subst hb
      rw [show (x :: xs).set 0 a = a :: xs from rfl]
      rw [List.countP_cons, List.countP_cons]
      omega
    | succ j =>
      have hj : xs.get? j = some b := by simpa using h
      rw [show (x :: xs).set (j + 1) a = x :: xs.set j a from rfl]
      rw [List.countP_cons, List.countP_cons]
      have := ih j hj
      omega

theorem installStep_bounded (ws ws' : List WorkerPhase)
    (hstep : InstallStep ws ws') (hb : holdingCount ws ≤ 10) :
    holdingCount ws' ≤ 10 := by
  cases hstep with
  | acquire i ops hw hsem =>
    have hbal := countP_set_balance
      (fun w => match w with | .holding _ => true | _ => false)
      ws i (.holding ops) (.waiting ops) hw
    simp at hbal
    unfold holdingCount at hsem ⊢
    omega
  | work i op rest hw =>
    have hbal := countP_set_balance
      (fun w => match w with | .holding _ => true | _ => false)
      ws i (.holding rest) (.holding (op :: rest)) hw
    simp at hbal
    unfold holdingCount at hb ⊢
    omega
  | release i hw =>
    have hbal := countP_set_balance
      (fun w => match w with | .holding _ => true | _ => false)
      ws i .finished (.holding []) hw
    simp at hbal
    unfold holdingCount at hb ⊢
    omega

/-- Claim C10: for any fleet larger than the admission limit (and in fact for
any fleet), in every pool state reachable by interleaving the workers of an
install pass, at most 10 workers hold a semaphore slot simultaneously; since
a worker may perform remote operations only while holding a slot (the work
step requires the holding phase), at most 10 remote SSH sessions are open at
once.  Every worker acquires a slot before any remote operation and releases
it when its operations are done, exactly as the goroutine body does. -/
theorem claim10_bounded_concurrency (plan : List (List SshAction))
    (ws : List WorkerPhase) (hN : 10 < plan.length)
    (hreach : InstallReachable plan ws) :
    holdingCount ws ≤ 10 := by
  unfold InstallReachable at hreach
  induction hreach with
  | refl =>
    have h0 : holdingCount (initPool plan) = 0 := by
      unfold holdingCount initPool
      rw [List.countP_map]
      exact List.countP_eq_zero.mpr fun a ha => by simp [Function.comp]
    rw [h0]
    omega
  | tail hab hbc ih => exact installStep_bounded _ _ hbc ih

/-- Witness for C10: an eleven-worker pool in its initial state. -/
theorem claim10_witness :
    10 < (List.replicate 11 ([] : List SshAction)).length ∧
    holdingCount (initPool (List.replicate 11 ([] : List SshAction))) ≤ 10 :=
  ⟨by decide,
   claim10_bounded_concurrency (List.replicate 11 ([] : List SshAction)) _
     (by decide) Relation.ReflTransGen.refl⟩

end TalisTest
